import Mathlib

/-!
Verification model of the `BluetoothChatService` in `src/lib/bluetooth.ts`.

The service is a singleton wrapper over the browser's Web Bluetooth API.  Its
state (device map, current user, scanning flag, `localStorage`) is embedded as
an explicit `ServiceState`; each method becomes a pure state-transition
function.  Interactions with the platform (the browser device chooser, GATT
operations, clocks, UUID generation) are passed in as explicit environment
records, and externally observable actions (browser discovery requests, GATT
writes, registered-callback invocations) are recorded as an `Event` trace.

JavaScript builtins used by the service (`JSON.stringify`/`JSON.parse` on the
object shapes the service serializes, `TextEncoder`/`TextDecoder` (UTF-8),
`Date.prototype.toISOString` and `new Date(isoString)`) have no source in the
repository; they are modelled here as executable functions following the
ECMAScript specification of those builtins.
-/

/-! ## Calendar arithmetic for the platform `Date` model

`Date.prototype.toISOString` and ISO-format date parsing are specified by
ECMAScript over the proleptic Gregorian calendar.  We model the conversion
between epoch days and civil dates with a 400-year-era decomposition in which
every remainder is defined by subtraction and every quotient is clamped, so
that the inversion proof is elementary.  `Int`'s `/` and `%` are Euclidean,
which for the positive divisors used here coincide with the floor
division/modulo that JavaScript number arithmetic (via `Math.floor`) uses. -/

/-- Clamp helper used by the calendar decomposition. -/
def imin (a b : Int) : Int := if a ≤ b then a else b

/-- Day of the 400-year era (era starts on March 1 of a year divisible by 400);
`719468` shifts the epoch so that day 0 is 1970-01-01. -/
def doeOf (z : Int) : Int := (z + 719468) % 146097

/-- Era index of an epoch day. -/
def eraOf (z : Int) : Int := (z + 719468) / 146097

/-- Century of era (0..3), clamped so the era's final leap day falls in century 3. -/
def coeOf (z : Int) : Int := imin (doeOf z / 36524) 3

/-- Day within the century (0..36524). -/
def docentOf (z : Int) : Int := doeOf z - coeOf z * 36524

/-- Four-year block within the century (0..24). -/
def qocOf (z : Int) : Int := docentOf z / 1461

/-- Day within the four-year block (0..1460). -/
def doqOf (z : Int) : Int := docentOf z % 1461

/-- Year within the four-year block (0..3), clamped so the leap day falls in year 3. -/
def yoqOf (z : Int) : Int := imin (doqOf z / 365) 3

/-- Day of the (March-based) year, 0..365. -/
def doyOf (z : Int) : Int := doqOf z - yoqOf z * 365

/-- Month (1..12) from a March-based day of year. -/
def monthOfDoy (doy : Int) : Int :=
  if doy < 31 then 3 else if doy < 61 then 4 else if doy < 92 then 5
  else if doy < 122 then 6 else if doy < 153 then 7 else if doy < 184 then 8
  else if doy < 214 then 9 else if doy < 245 then 10 else if doy < 275 then 11
  else if doy < 306 then 12 else if doy < 337 then 1 else 2

/-- Cumulative days before a month in the March-based year. -/
def cumOfMonth (m : Int) : Int :=
  if m = 3 then 0 else if m = 4 then 31 else if m = 5 then 61
  else if m = 6 then 92 else if m = 7 then 122 else if m = 8 then 153
  else if m = 9 then 184 else if m = 10 then 214 else if m = 11 then 245
  else if m = 12 then 275 else if m = 1 then 306 else 337

/-- Civil year of an epoch day (proleptic Gregorian). -/
def civilYear (z : Int) : Int :=
  eraOf z * 400 + coeOf z * 100 + qocOf z * 4 + yoqOf z +
    (if monthOfDoy (doyOf z) ≤ 2 then 1 else 0)

/-- Civil month of an epoch day. -/
def civilMonth (z : Int) : Int := monthOfDoy (doyOf z)

/-- Civil day-of-month of an epoch day. -/
def civilDay (z : Int) : Int := doyOf z - cumOfMonth (monthOfDoy (doyOf z)) + 1

/-- Epoch day of a civil date (inverse of `civilYear`/`civilMonth`/`civilDay`). -/
def daysFromCivil (y m d : Int) : Int :=
  let yp := if m ≤ 2 then y - 1 else y
  let era := yp / 400
  let yoe := yp - era * 400
  let coe := yoe / 100
  let yoc := yoe - coe * 100
  let qoc := yoc / 4
  let yoq := yoc - qoc * 4
  era * 146097 + coe * 36524 + qoc * 1461 + yoq * 365 + cumOfMonth m + d - 1 - 719468

/-! ## Decimal digit printing and parsing (for the ISO 8601 timestamp format) -/

/-- Decimal digit as a character. -/
def digitChar (n : Nat) : Char := Char.ofNat (48 + n)

/-- Decimal digit expansion with explicit fuel (structural, so the kernel can
evaluate it; the fuel is always sufficient at `n + 1`). -/
def natDigitsAux (fuel n : Nat) : List Char :=
  match fuel with
  | 0 => []
  | fuel + 1 =>
    if n < 10 then [digitChar n]
    else natDigitsAux fuel (n / 10) ++ [digitChar (n % 10)]

/-- Decimal digits of a natural number, most significant first. -/
def natDigits (n : Nat) : List Char := natDigitsAux (n + 1) n

/-- Zero-pad a number to a given width (full digits are kept on overflow). -/
def padNum (w n : Nat) : List Char :=
  List.replicate (w - (natDigits n).length) '0' ++ natDigits n

/-- Check for an ASCII decimal digit. -/
def isDigitCh (c : Char) : Bool := 48 ≤ c.toNat && c.toNat ≤ 57

/-- Split a character list into its leading run of digits and the rest. -/
def takeDigits : List Char → List Char × List Char
  | [] => ([], [])
  | c :: cs =>
    if isDigitCh c then
      let p := takeDigits cs
      (c :: p.1, p.2)
    else ([], c :: cs)

/-- Numeric value of a digit run. -/
def digitsVal (l : List Char) : Nat :=
  l.foldl (fun a c => 10 * a + (c.toNat - 48)) 0

/-- Greedily parse a decimal number; fails if no leading digit. -/
def parseNatGreedy (l : List Char) : Option (Nat × List Char) :=
  match takeDigits l with
  | ([], _) => none
  | (ds, r) => some (digitsVal ds, r)

/-- Consume one expected character. -/
def expectChar (c : Char) : List Char → Option (List Char)
  | [] => none
  | x :: r => if x = c then some r else none

/-- Parse a possibly signed (expanded-format) ISO year. -/
def parseSignedYear (l : List Char) : Option (Int × List Char) :=
  match l with
  | '-' :: r => (parseNatGreedy r).map (fun p => (-(p.1 : Int), p.2))
  | '+' :: r => (parseNatGreedy r).map (fun p => ((p.1 : Int), p.2))
  | _ => (parseNatGreedy l).map (fun p => ((p.1 : Int), p.2))

/-! ## The platform `Date` model: `toISOString` and ISO date-string parsing -/

/-- Year part of the ISO serialization: four digits, or the expanded
`±YYYYYY` format outside years 0..9999, per ECMAScript. -/
def yearChars (y : Int) : List Char :=
  if 0 ≤ y ∧ y ≤ 9999 then padNum 4 y.toNat
  else if y < 0 then '-' :: padNum 6 y.natAbs
  else '+' :: padNum 6 y.toNat

/-- Milliseconds-and-terminator part `.sssZ` of the ISO serialization. -/
def isoMsChars (tod : Nat) : List Char := '.' :: (padNum 3 (tod % 1000) ++ ['Z'])

/-- Seconds part `:ss.sssZ` of the ISO serialization. -/
def isoSecChars (tod : Nat) : List Char :=
  ':' :: (padNum 2 (tod / 1000 % 60) ++ isoMsChars tod)

/-- Minutes part `:mm:ss.sssZ` of the ISO serialization. -/
def isoMinChars (tod : Nat) : List Char :=
  ':' :: (padNum 2 (tod / 60000 % 60) ++ isoSecChars tod)

/-- Time-of-day part `HH:mm:ss.sssZ` of the ISO serialization. -/
def isoTimeChars (tod : Nat) : List Char := padNum 2 (tod / 3600000) ++ isoMinChars tod

/-- Day part `-DDTHH:mm:ss.sssZ` of the ISO serialization. -/
def isoDayChars (z : Int) (tod : Nat) : List Char :=
  '-' :: (padNum 2 (civilDay z).toNat ++ ('T' :: isoTimeChars tod))

/-- The `-MM-DDTHH:mm:ss.sssZ` part of the ISO serialization of a timestamp
with epoch day `z` and millisecond-of-day `tod`. -/
def isoTailChars (z : Int) (tod : Nat) : List Char :=
  '-' :: (padNum 2 (civilMonth z).toNat ++ isoDayChars z tod)

/-- Character content of `Date.prototype.toISOString` for a millisecond epoch
timestamp: `YYYY-MM-DDTHH:mm:ss.sssZ`. -/
def isoChars (t : Int) : List Char :=
  yearChars (civilYear (t / 86400000)) ++ isoTailChars (t / 86400000) (t % 86400000).toNat

/-- The ISO 8601 serialization of a `Date`, as produced by `toISOString`. -/
def isoString (t : Int) : String := String.mk (isoChars t)

/-- Parse a separator character followed by a decimal number. -/
def parseNumSep (sep : Char) (l : List Char) : Option (Nat × List Char) :=
  match expectChar sep l with
  | none => none
  | some r => parseNatGreedy r

/-- Parse the calendar-date part `YYYY-MM-DD` (expanded years allowed). -/
def parseDatePart (l : List Char) : Option (Int × Nat × Nat × List Char) :=
  match parseSignedYear l with
  | none => none
  | some (y, r1) =>
    match parseNumSep '-' r1 with
    | none => none
    | some (mo, r2) =>
      match parseNumSep '-' r2 with
      | none => none
      | some (d, r3) => some (y, mo, d, r3)

/-- Parse the time part `HH:mm:ss.sssZ` at the end of the input. -/
def parseTimePart (l : List Char) : Option (Nat × Nat × Nat × Nat) :=
  match parseNatGreedy l with
  | none => none
  | some (h, r1) =>
    match parseNumSep ':' r1 with
    | none => none
    | some (mi, r2) =>
      match parseNumSep ':' r2 with
      | none => none
      | some (s, r3) =>
        match parseNumSep '.' r3 with
        | none => none
        | some (ms, r4) =>
          match r4 with
          | ['Z'] => some (h, mi, s, ms)
          | _ => none

/-- Parse an ISO 8601 UTC date-time string (the format `toISOString` emits),
as `new Date(string)` does for this format; returns the millisecond epoch. -/
def parseISODateChars (l : List Char) : Option Int :=
  match parseDatePart l with
  | none => none
  | some (y, mo, d, r) =>
    match r with
    | 'T' :: r2 =>
      match parseTimePart r2 with
      | none => none
      | some (h, mi, s, ms) =>
        some (daysFromCivil y (mo : Int) (d : Int) * 86400000 +
          ((h : Int) * 3600000 + (mi : Int) * 60000 + (s : Int) * 1000 + (ms : Int)))
    | _ => none

/-- String-level entry point of the ISO date parser. -/
def parseISODate (s : String) : Option Int := parseISODateChars s.data

/-! ## UTF-8 (the `TextEncoder`/`TextDecoder` model) -/

/-- UTF-8 encoding of a single character, as a list of byte values. -/
def utf8EncodeChar (c : Char) : List Nat :=
  let n := c.toNat
  if n < 128 then [n]
  else if n < 2048 then [192 + n / 64, 128 + n % 64]
  else if n < 65536 then [224 + n / 4096, 128 + n / 64 % 64, 128 + n % 64]
  else [240 + n / 262144, 128 + n / 4096 % 64, 128 + n / 64 % 64, 128 + n % 64]

/-- UTF-8 encoding of a string (`TextEncoder.prototype.encode`). -/
def utf8Encode (s : String) : List Nat := s.data.flatMap utf8EncodeChar

/-- Check for a UTF-8 continuation byte. -/
def isCont (b : Nat) : Bool := 128 ≤ b && b < 192

/-- Decode one UTF-8 scalar value from the head of a byte list, rejecting
malformed, overlong, surrogate and out-of-range sequences. -/
def utf8DecodeOne : List Nat → Option (Char × List Nat)
  | [] => none
  | b :: rest =>
    if b < 128 then some (Char.ofNat b, rest)
    else if b < 192 then none
    else if b < 224 then
      match rest with
      | b1 :: rest1 =>
        if isCont b1 && decide (194 ≤ b) then
          some (Char.ofNat ((b - 192) * 64 + (b1 - 128)), rest1)
        else none
      | _ => none
    else if b < 240 then
      match rest with
      | b1 :: b2 :: rest2 =>
        if isCont b1 && isCont b2 &&
            decide (2048 ≤ (b - 224) * 4096 + (b1 - 128) * 64 + (b2 - 128)) &&
            !(decide (55296 ≤ (b - 224) * 4096 + (b1 - 128) * 64 + (b2 - 128)) &&
              decide ((b - 224) * 4096 + (b1 - 128) * 64 + (b2 - 128) < 57344)) then
          some (Char.ofNat ((b - 224) * 4096 + (b1 - 128) * 64 + (b2 - 128)), rest2)
        else none
      | _ => none
    else if b < 248 then
      match rest with
      | b1 :: b2 :: b3 :: rest3 =>
        if isCont b1 && isCont b2 && isCont b3 &&
            decide (65536 ≤ (b - 240) * 262144 + (b1 - 128) * 4096 +
              (b2 - 128) * 64 + (b3 - 128)) &&
            decide ((b - 240) * 262144 + (b1 - 128) * 4096 +
              (b2 - 128) * 64 + (b3 - 128) < 1114112) then
          some (Char.ofNat ((b - 240) * 262144 + (b1 - 128) * 4096 +
            (b2 - 128) * 64 + (b3 - 128)), rest3)
        else none
      | _ => none
    else none

/-- Fuelled UTF-8 decoding loop (each scalar consumes at least one byte, so
fuel equal to the byte count always suffices). -/
def utf8DecodeAux : Nat → List Nat → Option (List Char)
  | _, [] => some []
  | 0, _ :: _ => none
  | fuel + 1, l =>
    match utf8DecodeOne l with
    | none => none
    | some (c, r) => (utf8DecodeAux fuel r).map (fun cs => c :: cs)

/-- Decode a UTF-8 byte sequence to characters (`TextDecoder` on well-formed
input; malformed input is rejected rather than replaced). -/
def utf8DecodeChars (l : List Nat) : Option (List Char) := utf8DecodeAux l.length l

/-! ## JavaScript values and the JSON fragment the service serializes

The service serializes objects and arrays whose field values are strings or
`Date`s (`Date`s stringify as their ISO serialization, per `Date.prototype.toJSON`).
`JsValue` is the value space of those fields at runtime: a string, a valid
`Date` (carried as its millisecond timestamp), or an invalid `Date`. -/

/-- Runtime value of a serialized object field. -/
inductive JsValue where
  | str (s : String)
  | date (ms : Int)
  | nanDate
deriving DecidableEq, Repr

/-- A JavaScript object as an ordered field list (later duplicates win on access). -/
abbrev JsObj := List (String × JsValue)

/-- Hexadecimal digit character (lowercase, as `JSON.stringify` emits). -/
def hexDigitChar (n : Nat) : Char :=
  if n < 10 then Char.ofNat (48 + n) else Char.ofNat (87 + n)

/-- Parse one hexadecimal digit. -/
def parseHexDigit (c : Char) : Option Nat :=
  if 48 ≤ c.toNat ∧ c.toNat ≤ 57 then some (c.toNat - 48)
  else if 97 ≤ c.toNat ∧ c.toNat ≤ 102 then some (c.toNat - 87)
  else if 65 ≤ c.toNat ∧ c.toNat ≤ 70 then some (c.toNat - 55)
  else none

/-- JSON string escaping of one character, as `JSON.stringify` does. -/
def jsonEscapeChar (c : Char) : List Char :=
  if c = '"' then ['\\', '"']
  else if c = '\\' then ['\\', '\\']
  else if c.toNat = 8 then ['\\', 'b']
  else if c.toNat = 9 then ['\\', 't']
  else if c.toNat = 10 then ['\\', 'n']
  else if c.toNat = 12 then ['\\', 'f']
  else if c.toNat = 13 then ['\\', 'r']
  else if c.toNat < 32 then
    ['\\', 'u', '0', '0', hexDigitChar (c.toNat / 16), hexDigitChar (c.toNat % 16)]
  else [c]

/-- A JSON string literal (quotes included) for a string value. -/
def jsonQuote (s : String) : List Char :=
  '"' :: s.data.flatMap jsonEscapeChar ++ ['"']

/-- JSON serialization of a field value (`Date`s via `toJSON`, invalid `Date`s
stringify as `null`). -/
def jsValueChars : JsValue → List Char
  | .str s => jsonQuote s
  | .date t => jsonQuote (isoString t)
  | .nanDate => ['n', 'u', 'l', 'l']

/-- Interpose commas between serialized items (the `join(",")` of
`JSON.stringify`). -/
def sepByComma : List (List Char) → List Char
  | [] => []
  | x :: xs => x ++ xs.flatMap (fun y => ',' :: y)

/-- Serialization of an object, as `JSON.stringify` emits it (no whitespace). -/
def stringifyObj (o : JsObj) : List Char :=
  '{' :: sepByComma (o.map (fun kv => jsonQuote kv.1 ++ ':' :: jsValueChars kv.2)) ++ ['}']

/-- Serialization of an array of objects. -/
def stringifyArr (objs : List JsObj) : List Char :=
  '[' :: sepByComma (objs.map stringifyObj) ++ [']']

/-- Parse the body of a JSON string literal after the opening quote, returning
the content and the remainder after the closing quote. -/
def parseJsonStringBody : List Char → Option (List Char × List Char)
  | [] => none
  | c :: rest =>
    if c = '"' then some ([], rest)
    else if c = '\\' then
      match rest with
      | [] => none
      | e :: rest2 =>
        if e = '"' then (parseJsonStringBody rest2).map (fun p => ('"' :: p.1, p.2))
        else if e = '\\' then (parseJsonStringBody rest2).map (fun p => ('\\' :: p.1, p.2))
        else if e = '/' then (parseJsonStringBody rest2).map (fun p => ('/' :: p.1, p.2))
        else if e = 'b' then (parseJsonStringBody rest2).map (fun p => (Char.ofNat 8 :: p.1, p.2))
        else if e = 't' then (parseJsonStringBody rest2).map (fun p => (Char.ofNat 9 :: p.1, p.2))
        else if e = 'n' then (parseJsonStringBody rest2).map (fun p => (Char.ofNat 10 :: p.1, p.2))
        else if e = 'f' then (parseJsonStringBody rest2).map (fun p => (Char.ofNat 12 :: p.1, p.2))
        else if e = 'r' then (parseJsonStringBody rest2).map (fun p => (Char.ofNat 13 :: p.1, p.2))
        else if e = 'u' then
          match rest2 with
          | h1 :: h2 :: h3 :: h4 :: rest3 => do
            let d1 ← parseHexDigit h1
            let d2 ← parseHexDigit h2
            let d3 ← parseHexDigit h3
            let d4 ← parseHexDigit h4
            (parseJsonStringBody rest3).map
              (fun p => (Char.ofNat (d1 * 4096 + d2 * 256 + d3 * 16 + d4) :: p.1, p.2))
          | _ => none
        else none
    else (parseJsonStringBody rest).map (fun p => (c :: p.1, p.2))

/-- Parse a JSON string literal, opening quote included. -/
def parseJsonString : List Char → Option (String × List Char)
  | [] => none
  | c :: rest =>
    if c = '"' then (parseJsonStringBody rest).map (fun p => (String.mk p.1, p.2))
    else none

/-- Parse the field list of a JSON object (string-valued fields, the fragment
the service serializes), after the opening brace of a nonempty object. -/
def parseObjFields : Nat → List Char → Option (JsObj × List Char)
  | 0, _ => none
  | fuel + 1, l =>
    match parseJsonString l with
    | none => none
    | some (k, r1) =>
      match expectChar ':' r1 with
      | none => none
      | some r2 =>
        match parseJsonString r2 with
        | none => none
        | some (v, r3) =>
          match r3 with
          | ',' :: r4 => (parseObjFields fuel r4).map (fun p => ((k, .str v) :: p.1, p.2))
          | '}' :: r4 => some ([(k, .str v)], r4)
          | _ => none

/-- Parse a JSON object of string-valued fields. -/
def parseObj (fuel : Nat) : List Char → Option (JsObj × List Char)
  | '{' :: r =>
    match r with
    | '}' :: r2 => some ([], r2)
    | _ => parseObjFields fuel r
  | _ => none

/-- Parse a complete JSON object document (no trailing input), as `JSON.parse`
accepts for the profile/message strings the service stores. -/
def parseObjTop (l : List Char) : Option JsObj :=
  match parseObj l.length l with
  | some (o, []) => some o
  | _ => none

/-- Parse the element list of a nonempty JSON array of objects. -/
def parseArrElems : Nat → List Char → Option (List JsObj × List Char)
  | 0, _ => none
  | fuel + 1, l =>
    match parseObj l.length l with
    | none => none
    | some (o, r1) =>
      match r1 with
      | ',' :: r2 => (parseArrElems fuel r2).map (fun p => (o :: p.1, p.2))
      | ']' :: r2 => some ([o], r2)
      | _ => none

/-- Parse a complete JSON array-of-objects document. -/
def parseArrTop (l : List Char) : Option (List JsObj) :=
  match l with
  | '[' :: r =>
    match r with
    | ']' :: r2 => if r2 = [] then some [] else none
    | _ =>
      match parseArrElems r.length r with
      | some (objs, []) => some objs
      | _ => none
  | _ => none

/-- String content a field value serializes to inside the JSON text. -/
def jsValueString : JsValue → String
  | .str s => s
  | .date t => isoString t
  | .nanDate => "null"

/-- The object produced by `JSON.parse` of a serialized object: every field
value comes back as a plain string (`Date`s are not revived). -/
def objAfterJson (o : JsObj) : JsObj :=
  o.map (fun kv => (kv.1, .str (jsValueString kv.2)))

/-- Model of `new Date(v)` applied to a parsed field value. -/
def reviveDate : JsValue → JsValue
  | .str s =>
    match parseISODate s with
    | some t => .date t
    | none => .nanDate
  | .date t => .date t
  | .nanDate => .nanDate

/-- Model of `{ ...msg, timestamp: new Date(msg.timestamp) }` in `getStoredMessages`. -/
def reviveMsg (o : JsObj) : JsObj :=
  o.map (fun kv => if kv.1 = "timestamp" then (kv.1, reviveDate kv.2) else kv)

/-! ## Data model of the service (`bluetooth.ts` interfaces) -/

/-- The `ChatUser` interface. -/
structure ChatUser where
  id : String
  name : String
  avatar : Option String
deriving DecidableEq, Repr

/-- The `BluetoothMessage` interface.  `timestamp` is declared `Date` in the
source; we carry it as a `JsValue` so that the value produced by JSON decoding
(a string) is expressible in the same field. -/
structure BluetoothMessage where
  id : String
  content : String
  sender : String
  timestamp : JsValue
  type : String
deriving DecidableEq, Repr

/-- A `BluetoothDevice` handle from the browser. -/
structure BrowserDevice where
  id : String
  name : Option String
deriving DecidableEq, Repr

/-- The `ChatDevice` interface.  GATT handles (`server`, `service`,
`characteristic`) are tracked by presence. -/
structure ChatDevice where
  id : String
  name : String
  connected : Bool
  lastSeen : Int
  device : Option BrowserDevice
  server : Bool
  service : Bool
  characteristic : Bool
  isKickChatDevice : Bool
deriving DecidableEq, Repr

/-- Observable actions of the service: browser discovery requests, GATT
characteristic writes, and invocations of the registered callback lists. -/
inductive Event where
  | browserRequest
  | gattWrite (bytes : List Nat)
  | deviceFound (d : ChatDevice)
  | connection (d : ChatDevice)
  | disconnection (id : String)
  | messageCallback (m : BluetoothMessage)
deriving DecidableEq, Repr

/-- Mutable state of the `BluetoothChatService` singleton plus the
`localStorage` key-value store it persists to. -/
structure ServiceState where
  devices : List (String × ChatDevice)
  currentUser : Option ChatUser
  isScanning : Bool
  scanStartTime : Option Int
  storage : List (String × String)
deriving DecidableEq, Repr

/-- Lookup in an insertion-ordered string-keyed map (`Map.get` / `localStorage.getItem`). -/
def assocLookup {α : Type} (m : List (String × α)) (k : String) : Option α :=
  (m.find? (fun kv => kv.1 = k)).map (fun kv => kv.2)

/-- Update in an insertion-ordered map (`Map.set` / `localStorage.setItem`):
an existing key keeps its position, a new key is appended. -/
def mapSet {α : Type} (m : List (String × α)) (k : String) (v : α) : List (String × α) :=
  if m.any (fun kv => kv.1 = k) then
    m.map (fun kv => if kv.1 = k then (k, v) else kv)
  else m ++ [(k, v)]

/-- Removal from a string-keyed map (`Map.delete`; keys are unique). -/
def mapDelete {α : Type} (m : List (String × α)) (k : String) : List (String × α) :=
  m.filter (fun kv => ¬ kv.1 = k)

/-- The `String.prototype.includes` test used on error messages. -/
def includesSubstr (s pat : String) : Bool := decide (pat.data <:+: s.data)

/-- The message object as serialized by `JSON.stringify` (fields in the
creation order of the literal in `sendMessage`). -/
def msgToObj (m : BluetoothMessage) : JsObj :=
  [("id", .str m.id), ("content", .str m.content), ("sender", .str m.sender),
   ("timestamp", m.timestamp), ("type", .str m.type)]

/-- The profile object as serialized (field order of the literal in `UserProfile`). -/
def userToObj (u : ChatUser) : JsObj :=
  [("id", .str u.id), ("name", .str u.name)] ++
    (match u.avatar with
     | some a => [("avatar", .str a)]
     | none => [])

/-- JavaScript property access on a parsed object (later duplicates win). -/
def objGet (o : JsObj) (k : String) : Option JsValue :=
  (o.reverse.find? (fun kv => kv.1 = k)).map (fun kv => kv.2)

/-- Read a parsed profile object back as a `ChatUser` (the shape the untyped
`JSON.parse` result is used at in `getCurrentUser`). -/
def objToUser (o : JsObj) : Option ChatUser :=
  match objGet o "id", objGet o "name" with
  | some (.str i), some (.str n) =>
    some { id := i, name := n,
           avatar := match objGet o "avatar" with
                     | some (.str a) => some a
                     | _ => none }
  | _, _ => none

/-! ## Service operations -/

/-- The `encodeMessage` method: UTF-8 bytes of `JSON.stringify(message)`. -/
def encodeMessage (m : BluetoothMessage) : List Nat :=
  utf8Encode (String.mk (stringifyObj (msgToObj m)))

/-- The `decodeMessage` method: `JSON.parse` of the UTF-8 decoded buffer
(returns `none` where the source catches a decode error and returns `null`). -/
def decodeMessage (bytes : List Nat) : Option JsObj :=
  match utf8DecodeChars bytes with
  | none => none
  | some chars => parseObjTop chars

/-- The `setCurrentUser` method. -/
def setCurrentUser (u : ChatUser) (st : ServiceState) : ServiceState :=
  { st with currentUser := some u,
            storage := mapSet st.storage "kickchat_user"
              (String.mk (stringifyObj (userToObj u))) }

/-- The `getCurrentUser` method; returns the user and the state (the reload
path caches the parsed profile).  `none` models a `JSON.parse` throw or an
ill-shaped stored profile, which no claim exercises. -/
def getCurrentUser (st : ServiceState) : Option (Option ChatUser × ServiceState) :=
  match st.currentUser with
  | some u => some (some u, st)
  | none =>
    match assocLookup st.storage "kickchat_user" with
    | none => some (none, st)
    | some s =>
      match parseObjTop s.data with
      | none => none
      | some o =>
        match objToUser o with
        | none => none
        | some u => some (some u, { st with currentUser := some u })

/-- The `isScanningInProgress` method. -/
def isScanningInProgress (st : ServiceState) : Bool := st.isScanning

/-- The `getStoredMessages` method: parse the list under `kickchat_messages`
and revive each `timestamp` with `new Date`.  `none` models a `JSON.parse`
throw on a corrupt store. -/
def getStoredMessages (st : ServiceState) : Option (List JsObj) :=
  match assocLookup st.storage "kickchat_messages" with
  | none => some []
  | some s =>
    match parseArrTop s.data with
    | none => none
    | some objs => some (objs.map reviveMsg)

/-- The `storeMessage` method: append to the stored list and write it back. -/
def storeMessage (m : BluetoothMessage) (st : ServiceState) : Option ServiceState :=
  match getStoredMessages st with
  | none => none
  | some msgs =>
    some { st with storage :=
                     mapSet st.storage "kickchat_messages"
                       (String.mk (stringifyArr (msgs ++ [msgToObj m]))) }

/-- Platform outcomes consumed by one `sendMessage` call. -/
structure SendEnv where
  uuid : String
  now : Int
  writeOk : Bool
deriving Repr

/-- The `sendMessage` method.  Returns the boolean result, the next state and
the event trace (a `gattWrite` event records an attempted characteristic
write, even one that throws). -/
def sendMessage (st : ServiceState) (deviceId content : String) (env : SendEnv) :
    Bool × ServiceState × List Event :=
  match assocLookup st.devices deviceId with
  | none => (false, st, [])
  | some device =>
    if ¬ device.connected then (false, st, [])
    else
      match st.currentUser with
      | none => (false, st, [])
      | some user =>
        let message : BluetoothMessage :=
          { id := env.uuid, content := content, sender := user.id,
            timestamp := .date env.now, type := "text" }
        if device.isKickChatDevice ∧ device.characteristic then
          if env.writeOk then
            match storeMessage message st with
            | some st1 =>
              (true, st1, [.gattWrite (encodeMessage message), .messageCallback message])
            | none => (false, st, [.gattWrite (encodeMessage message)])
          else (false, st, [.gattWrite (encodeMessage message)])
        else
          match storeMessage message st with
          | some st1 => (true, st1, [.messageCallback message])
          | none => (false, st, [])

/-- Platform outcomes consumed by one `requestDevice` call. -/
structure ScanEnv where
  supported : Bool
  outcome1 : Except String BrowserDevice
  outcome2 : Except String BrowserDevice
  gattNameRead : Option String
  timeStr : String
  now : Int
deriving Repr

/-- The `generateDeviceName` method (the GATT name read is an environment
outcome; `none` covers a missing `gatt` handle and a failed read). -/
def generateDeviceName (device : BrowserDevice) (env : ScanEnv) : String :=
  match device.name with
  | some n =>
    if n ≠ "" ∧ n.trim ≠ "" then n.trim
    else generateNameFallback device env
  | none => generateNameFallback device env
where
  /-- GATT name read then the `Device XXXX (time)` fallback. -/
  generateNameFallback (device : BrowserDevice) (env : ScanEnv) : String :=
    match env.gattNameRead with
    | some n =>
      if n ≠ "" ∧ n.trim ≠ "" then n.trim
      else fallbackName device env
    | none => fallbackName device env
  /-- The fallback name built from the device id and the current time. -/
  fallbackName (device : BrowserDevice) (env : ScanEnv) : String :=
    (if device.id ≠ "" then
      (if 4 ≤ device.id.length then "Device " ++ device.id.takeRight 4
       else "Device " ++ device.id)
     else "Unknown Device") ++ " (" ++ env.timeStr ++ ")"

/-- Shared device bookkeeping of `requestDevice`/`requestDeviceFallback`:
update an existing map entry (`updateExistingDevice`) or register a fresh
`ChatDevice`, and notify the device-found callbacks. -/
def handleFoundDevice (st : ServiceState) (device : BrowserDevice) (env : ScanEnv) :
    ChatDevice × ServiceState × List Event :=
  match assocLookup st.devices device.id with
  | some existing =>
    let upd := { existing with device := some device, lastSeen := env.now }
    (upd, { st with devices := mapSet st.devices device.id upd }, [.deviceFound upd])
  | none =>
    let cd : ChatDevice :=
      { id := device.id, name := generateDeviceName device env, connected := false,
        lastSeen := env.now, device := some device, server := false, service := false,
        characteristic := false, isKickChatDevice := false }
    (cd, { st with devices := mapSet st.devices device.id cd }, [.deviceFound cd])

/-- The `requestDevice` method (with its `requestDeviceFallback` path).  Each
`Event.browserRequest` in the trace is one `navigator.bluetooth.requestDevice`
call; a thrown error is an `Except.error` result. -/
def requestDevice (st : ServiceState) (env : ScanEnv) :
    Except String (Option ChatDevice) × ServiceState × List Event :=
  if ¬ env.supported then (.error "Bluetooth not supported", st, [])
  else if st.isScanning then (.ok none, st, [])
  else
    let st1 := { st with isScanning := true, scanStartTime := some env.now }
    match env.outcome1 with
    | .ok device =>
      let r := handleFoundDevice st1 device env
      (.ok (some r.1), { r.2.1 with isScanning := false }, .browserRequest :: r.2.2)
    | .error msg =>
      if includesSubstr msg "no services found" then
        match env.outcome2 with
        | .ok device =>
          let r := handleFoundDevice st1 device env
          (.ok (some r.1), { r.2.1 with isScanning := false },
            .browserRequest :: .browserRequest :: r.2.2)
        | .error _ =>
          (.ok none, { st1 with isScanning := false }, [.browserRequest, .browserRequest])
      else (.ok none, { st1 with isScanning := false }, [.browserRequest])

/-- Number of browser discovery requests in a trace. -/
def browserRequestCount (evs : List Event) : Nat :=
  (evs.filter (fun e => e = .browserRequest)).length

/-- Platform outcomes consumed by one `connectToDevice` call. -/
structure ConnectEnv where
  hasGatt : Bool
  alreadyConnected : Bool
  connectOk : Option Bool
  connectErrMsg : String
  betterName : Option String
  kickChat : Bool
  otherServices : Option Nat
  now : Int
deriving Repr

/-- The error-message translation in `connectToDevice`'s catch block. -/
def mapConnectError (msg : String) : String :=
  if includesSubstr msg "Unsupported device" then
    "Device not supported: This device cannot establish Bluetooth connections"
  else if includesSubstr msg "GATT operation failed" then
    "Connection failed: Device may be busy or out of range"
  else if includesSubstr msg "Connection failed" then
    "Connection failed: Device unavailable or already connected to another app"
  else if includesSubstr msg "Permission denied" then
    "Permission denied: Please allow Bluetooth access"
  else msg

/-- The `connectToDevice` method.  `env.kickChat` is true when the peer's
KickChat service and message characteristic were acquired and notifications
started; `env.otherServices` is the `getPrimaryServices` outcome on the
fallback path (`none` models a throw). -/
def connectToDevice (st : ServiceState) (deviceId : String) (env : ConnectEnv) :
    Except String Bool × ServiceState × List Event :=
  match assocLookup st.devices deviceId with
  | none => (.ok false, st, [])
  | some cd =>
    if cd.device = none then (.ok false, st, [])
    else if ¬ env.hasGatt then
      (.error (mapConnectError "Device does not support GATT connections"), st, [])
    else if env.alreadyConnected then
      let cd1 := { cd with connected := true }
      (.ok true, { st with devices := mapSet st.devices deviceId cd1 }, [.connection cd1])
    else
      match env.connectOk with
      | none => (.error (mapConnectError env.connectErrMsg), st, [])
      | some false => (.ok false, st, [])
      | some true =>
        let name1 :=
          match env.betterName with
          | some n => if n ≠ "" ∧ n ≠ cd.name then n else cd.name
          | none => cd.name
        let cd1 :=
          if env.kickChat then
            { cd with name := name1, service := true, characteristic := true,
                      server := true, connected := true, lastSeen := env.now,
                      isKickChatDevice := true }
          else
            { cd with name := name1,
                      service := (match env.otherServices with
                                  | some (_ + 1) => true
                                  | _ => cd.service),
                      server := true, connected := true, lastSeen := env.now,
                      isKickChatDevice := false }
        (.ok true, { st with devices := mapSet st.devices deviceId cd1 }, [.connection cd1])

/-- The `getConnectedDevices` method. -/
def getConnectedDevices (st : ServiceState) : List ChatDevice :=
  (st.devices.map (fun kv => kv.2)).filter (fun d => d.connected)

/-- The sort comparator of `getAllDevices` as a boolean "precedes or ties"
relation: `deviceLe a b` exactly when the comparator returns a value `≤ 0`. -/
def deviceLe (a b : ChatDevice) : Bool :=
  (a.connected && !b.connected) ||
    ((a.connected == b.connected) && decide (b.lastSeen ≤ a.lastSeen))

/-- The `getAllDevices` method: the device list sorted by the comparator
(`Array.prototype.sort` is a stable sort consistent with the comparator). -/
def getAllDevices (st : ServiceState) : List ChatDevice :=
  (st.devices.map (fun kv => kv.2)).mergeSort deviceLe

/-- The `cleanupOldDevices` method: collect stale disconnected device ids,
then delete them from the map. -/
def cleanupOldDevices (st : ServiceState) (now : Int) : ServiceState :=
  let oneHourAgo := now - 3600000
  let devicesToRemove :=
    (st.devices.filter (fun kv => ¬ kv.2.connected ∧ kv.2.lastSeen < oneHourAgo)).map
      (fun kv => kv.1)
  { st with devices := devicesToRemove.foldl mapDelete st.devices }

/-- Predicate on the remainder of the input: it does not start with a digit
(so a greedy number parse stops exactly at the printed digits). -/
def notDigitStart : List Char → Prop
  | [] => True
  | c :: _ => isDigitCh c = false

/-- A stored message object that survives the JSON store/reload cycle intact:
no field is an invalid `Date`, and reviving the parsed object returns it. -/
def GoodStoredObj (o : JsObj) : Prop :=
  (∀ kv ∈ o, kv.2 ≠ JsValue.nanDate) ∧ reviveMsg (objAfterJson o) = o

/-! # Theorems

First the supporting lemmas for the platform models (calendar, digits, UTF-8,
JSON), then one theorem (with witness or counterexample) per specification
claim. -/

/-! ## Calendar lemmas -/

theorem doeOf_bounds (z : Int) : 0 ≤ doeOf z ∧ doeOf z ≤ 146096 := by
  unfold doeOf; omega

theorem coe_docent_bounds (z : Int) :
    0 ≤ coeOf z ∧ coeOf z ≤ 3 ∧ 0 ≤ docentOf z ∧ docentOf z ≤ 36524 := by
  have h := doeOf_bounds z
  unfold docentOf coeOf imin
  split <;> omega

theorem qoc_doq_bounds (z : Int) :
    0 ≤ qocOf z ∧ qocOf z ≤ 24 ∧ 0 ≤ doqOf z ∧ doqOf z ≤ 1460 := by
  have h := coe_docent_bounds z
  unfold qocOf doqOf
  omega

theorem yoq_doy_bounds (z : Int) :
    0 ≤ yoqOf z ∧ yoqOf z ≤ 3 ∧ 0 ≤ doyOf z ∧ doyOf z ≤ 365 := by
  have h := qoc_doq_bounds z
  unfold doyOf yoqOf imin
  split <;> omega

theorem month_day_inv (doy : Int) (h0 : 0 ≤ doy) (h1 : doy ≤ 365) :
    cumOfMonth (monthOfDoy doy) + (doy - cumOfMonth (monthOfDoy doy) + 1) - 1 = doy ∧
    1 ≤ monthOfDoy doy ∧ monthOfDoy doy ≤ 12 ∧
    1 ≤ doy - cumOfMonth (monthOfDoy doy) + 1 ∧
    doy - cumOfMonth (monthOfDoy doy) + 1 ≤ 31 := by
  unfold monthOfDoy
  split <;> simp only [cumOfMonth] <;> norm_num <;> omega

theorem era_decomposition (z : Int) :
    eraOf z * 146097 + coeOf z * 36524 + qocOf z * 1461 + yoqOf z * 365 + doyOf z
      = z + 719468 := by
  unfold doyOf yoqOf doqOf qocOf docentOf coeOf doeOf eraOf imin
  split <;> split <;> omega

theorem civil_bounds (z : Int) :
    1 ≤ civilMonth z ∧ civilMonth z ≤ 12 ∧ 1 ≤ civilDay z ∧ civilDay z ≤ 31 := by
  have hyoq := yoq_doy_bounds z
  have hmd := month_day_inv (doyOf z) hyoq.2.2.1 hyoq.2.2.2
  unfold civilMonth civilDay
  exact ⟨hmd.2.1, hmd.2.2.1, hmd.2.2.2.1, hmd.2.2.2.2⟩

theorem daysFromCivil_civil (z : Int) :
    daysFromCivil (civilYear z) (civilMonth z) (civilDay z) = z := by
  have hdoe := doeOf_bounds z
  have hcoe := coe_docent_bounds z
  have hqoc := qoc_doq_bounds z
  have hyoq := yoq_doy_bounds z
  have hmd := month_day_inv (doyOf z) hyoq.2.2.1 hyoq.2.2.2
  have hdec := era_decomposition z
  unfold civilYear civilMonth civilDay daysFromCivil
  set era := eraOf z with hera
  set coe := coeOf z with hc
  set qoc := qocOf z with hq
  set yoq := yoqOf z with hy
  set doy := doyOf z with hd
  set m := monthOfDoy doy with hm
  by_cases hm2 : m ≤ 2
  · simp only [hm2, if_pos, if_true]
    omega
  · simp only [hm2, if_neg, if_false]
    omega

/-! ## Digit printing and parsing lemmas -/

theorem digitChar_spec (d : Nat) (h : d < 10) :
    isDigitCh (digitChar d) = true ∧ (digitChar d).toNat = 48 + d := by
  interval_cases d <;> exact ⟨rfl, rfl⟩

theorem natDigitsAux_all_digits (fuel : Nat) :
    ∀ n, n < fuel → ∀ c ∈ natDigitsAux fuel n, isDigitCh c = true := by
  induction fuel with
  | zero => intro n hn; omega
  | succ fuel ih =>
    intro n _ c hc
    rw [natDigitsAux] at hc
    split at hc
    · rw [List.mem_singleton] at hc
      subst hc
      exact (digitChar_spec n (by omega)).1
    · rcases List.mem_append.mp hc with h1 | h2
      · exact ih (n / 10) (by omega) c h1
      · rw [List.mem_singleton] at h2
        subst h2
        exact (digitChar_spec (n % 10) (Nat.mod_lt _ (by omega))).1

theorem natDigits_all_digits (n : Nat) : ∀ c ∈ natDigits n, isDigitCh c = true :=
  natDigitsAux_all_digits (n + 1) n (by omega)

theorem natDigits_ne_nil (n : Nat) : natDigits n ≠ [] := by
  rw [natDigits, natDigitsAux]
  split <;> simp

theorem digitsVal_acc (l : List Char) (a : Nat) :
    l.foldl (fun a c => 10 * a + (c.toNat - 48)) a = a * 10 ^ l.length + digitsVal l := by
  induction l generalizing a with
  | nil => simp [digitsVal]
  | cons c cs ih =>
    simp only [List.foldl_cons, digitsVal, List.length_cons]
    rw [ih, ih (10 * 0 + (c.toNat - 48))]
    ring

theorem digitsVal_append (l1 l2 : List Char) :
    digitsVal (l1 ++ l2) = digitsVal l1 * 10 ^ l2.length + digitsVal l2 := by
  unfold digitsVal
  rw [List.foldl_append, digitsVal_acc]
  rfl

theorem natDigitsAux_val (fuel : Nat) :
    ∀ n, n < fuel → digitsVal (natDigitsAux fuel n) = n := by
  induction fuel with
  | zero => intro n hn; omega
  | succ fuel ih =>
    intro n hn
    rw [natDigitsAux]
    split
    · simp only [digitsVal, List.foldl_cons, List.foldl_nil]
      have := (digitChar_spec n (by omega)).2
      omega
    · rw [digitsVal_append, ih (n / 10) (by omega)]
      simp only [digitsVal, List.foldl_cons, List.foldl_nil, List.length_singleton]
      have := (digitChar_spec (n % 10) (Nat.mod_lt _ (by omega))).2
      omega

theorem digitsVal_natDigits (n : Nat) : digitsVal (natDigits n) = n :=
  natDigitsAux_val (n + 1) n (by omega)

theorem digitsVal_replicate_zero (k : Nat) (l : List Char) :
    digitsVal (List.replicate k '0' ++ l) = digitsVal l := by
  have hz : digitsVal (List.replicate k '0') = 0 := by
    induction k with
    | zero => rfl
    | succ k ihk =>
      rw [List.replicate_succ]
      simp only [digitsVal, List.foldl_cons] at ihk ⊢
      simpa using ihk
  rw [digitsVal_append, hz, Nat.zero_mul, Nat.zero_add]

theorem padNum_all_digits (w n : Nat) : ∀ c ∈ padNum w n, isDigitCh c = true := by
  intro c hc
  unfold padNum at hc
  rcases List.mem_append.mp hc with h1 | h2
  · rw [List.eq_of_mem_replicate h1]; rfl
  · exact natDigits_all_digits n c h2

theorem padNum_val (w n : Nat) : digitsVal (padNum w n) = n := by
  unfold padNum
  rw [digitsVal_replicate_zero, digitsVal_natDigits]

theorem padNum_ne_nil (w n : Nat) : padNum w n ≠ [] := by
  unfold padNum
  intro h
  rcases List.append_eq_nil.mp h with ⟨_, h2⟩
  exact natDigits_ne_nil n h2

theorem takeDigits_spec (ds rest : List Char) (hd : ∀ c ∈ ds, isDigitCh c = true)
    (hr : notDigitStart rest) : takeDigits (ds ++ rest) = (ds, rest) := by
  induction ds with
  | nil =>
    simp only [List.nil_append]
    cases rest with
    | nil => rfl
    | cons c cs =>
      unfold takeDigits
      simp only [notDigitStart] at hr
      rw [hr]
      simp
  | cons c cs ih =>
    have hc := hd c (List.mem_cons_self c cs)
    simp only [List.cons_append, takeDigits, hc, if_true, List.append_eq]
    rw [ih (fun x hx => hd x (List.mem_cons_of_mem c hx))]

theorem parseNatGreedy_pad (w n : Nat) (rest : List Char) (hr : notDigitStart rest) :
    parseNatGreedy (padNum w n ++ rest) = some (n, rest) := by
  unfold parseNatGreedy
  rw [takeDigits_spec (padNum w n) rest (padNum_all_digits w n) hr]
  have hne := padNum_ne_nil w n
  cases hpn : padNum w n with
  | nil => exact absurd hpn hne
  | cons c cs =>
    simp only []
    rw [← hpn, padNum_val]

/-! ## ISO date-string round-trip lemmas -/

theorem expectChar_cons (c : Char) (r : List Char) : expectChar c (c :: r) = some r := by
  simp [expectChar]

theorem notDigitStart_cons (c : Char) (l : List Char) (h : isDigitCh c = false) :
    notDigitStart (c :: l) := h

theorem parseNumSep_pad (sep : Char) (w n : Nat) (rest : List Char)
    (hr : notDigitStart rest) :
    parseNumSep sep (sep :: (padNum w n ++ rest)) = some (n, rest) := by
  unfold parseNumSep
  rw [expectChar_cons]
  exact parseNatGreedy_pad w n rest hr

theorem parseSignedYear_digit (c : Char) (l : List Char) (hc : isDigitCh c = true) :
    parseSignedYear (c :: l) =
      (parseNatGreedy (c :: l)).map (fun p => ((p.1 : Int), p.2)) := by
  unfold parseSignedYear
  split
  next r heq =>
    obtain ⟨h1, _⟩ := List.cons.inj heq
    subst h1
    exact absurd hc (by decide)
  next r heq =>
    obtain ⟨h1, _⟩ := List.cons.inj heq
    subst h1
    exact absurd hc (by decide)
  next => rfl

theorem parseSignedYear_pad_nonneg (y : Int) (hy : 0 ≤ y) (w : Nat) (rest : List Char)
    (hr : notDigitStart rest) :
    parseSignedYear (padNum w y.toNat ++ rest) = some (y, rest) := by
  cases hpn : padNum w y.toNat with
  | nil => exact absurd hpn (padNum_ne_nil w y.toNat)
  | cons c cs =>
    have hc : isDigitCh c = true := by
      apply padNum_all_digits w y.toNat
      rw [hpn]
      exact List.mem_cons_self c cs
    rw [List.cons_append, parseSignedYear_digit c (cs ++ rest) hc, ← List.cons_append,
      ← hpn, parseNatGreedy_pad w y.toNat rest hr]
    simp [Int.toNat_of_nonneg hy]

theorem parseSignedYear_pad_neg (n w : Nat) (rest : List Char)
    (hr : notDigitStart rest) :
    parseSignedYear ('-' :: (padNum w n ++ rest)) = some (-(n : Int), rest) := by
  show (parseNatGreedy (padNum w n ++ rest)).map (fun p => (-(p.1 : Int), p.2)) = _
  rw [parseNatGreedy_pad w n rest hr]
  rfl

theorem parseSignedYear_pad_pos (n w : Nat) (rest : List Char)
    (hr : notDigitStart rest) :
    parseSignedYear ('+' :: (padNum w n ++ rest)) = some ((n : Int), rest) := by
  show (parseNatGreedy (padNum w n ++ rest)).map (fun p => ((p.1 : Int), p.2)) = _
  rw [parseNatGreedy_pad w n rest hr]
  rfl

theorem parseSignedYear_yearChars (y : Int) (rest : List Char)
    (hr : notDigitStart rest) :
    parseSignedYear (yearChars y ++ rest) = some (y, rest) := by
  unfold yearChars
  split
  next hy => exact parseSignedYear_pad_nonneg y hy.1 4 rest hr
  next hy =>
    split
    next hneg =>
      rw [List.cons_append, parseSignedYear_pad_neg y.natAbs 6 rest hr]
      congr 1
      rw [Prod.mk.injEq]
      refine ⟨?_, rfl⟩
      omega
    next hpos =>
      rw [List.cons_append, parseSignedYear_pad_pos y.toNat 6 rest hr]
      congr 1
      rw [Prod.mk.injEq]
      refine ⟨?_, rfl⟩
      omega

theorem parseTimePart_iso (tod : Nat) :
    parseTimePart (isoTimeChars tod) =
      some (tod / 3600000, tod / 60000 % 60, tod / 1000 % 60, tod % 1000) := by
  have h5 : parseNatGreedy (isoTimeChars tod) =
      some (tod / 3600000, isoMinChars tod) :=
    parseNatGreedy_pad 2 _ _ (notDigitStart_cons _ _ rfl)
  have h6 : parseNumSep ':' (isoMinChars tod) =
      some (tod / 60000 % 60, isoSecChars tod) :=
    parseNumSep_pad ':' 2 _ _ (notDigitStart_cons _ _ rfl)
  have h7 : parseNumSep ':' (isoSecChars tod) =
      some (tod / 1000 % 60, isoMsChars tod) :=
    parseNumSep_pad ':' 2 _ _ (notDigitStart_cons _ _ rfl)
  have h8 : parseNumSep '.' (isoMsChars tod) = some (tod % 1000, ['Z']) :=
    parseNumSep_pad '.' 3 _ _ (notDigitStart_cons _ _ rfl)
  simp only [parseTimePart, h5, h6, h7, h8]

theorem parseISO_roundtrip (t : Int) : parseISODateChars (isoChars t) = some t := by
  have hcb := civil_bounds (t / 86400000)
  have h1 : parseSignedYear (isoChars t) =
      some (civilYear (t / 86400000), isoTailChars (t / 86400000) (t % 86400000).toNat) :=
    parseSignedYear_yearChars _ _ (notDigitStart_cons _ _ rfl)
  have h2 : parseNumSep '-' (isoTailChars (t / 86400000) (t % 86400000).toNat) =
      some ((civilMonth (t / 86400000)).toNat,
        isoDayChars (t / 86400000) (t % 86400000).toNat) :=
    parseNumSep_pad '-' 2 _ _ (notDigitStart_cons _ _ rfl)
  have h3 : parseNumSep '-' (isoDayChars (t / 86400000) (t % 86400000).toNat) =
      some ((civilDay (t / 86400000)).toNat, 'T' :: isoTimeChars (t % 86400000).toNat) :=
    parseNumSep_pad '-' 2 _ _ (notDigitStart_cons _ _ rfl)
  have h4 := parseTimePart_iso (t % 86400000).toNat
  simp only [parseISODateChars, parseDatePart, h1, h2, h3, h4, Option.some.injEq]
  have hmo : (((civilMonth (t / 86400000)).toNat : Int)) = civilMonth (t / 86400000) := by
    omega
  have hd : (((civilDay (t / 86400000)).toNat : Int)) = civilDay (t / 86400000) := by
    omega
  rw [hmo, hd, daysFromCivil_civil]
  omega

/-! ## UTF-8 round-trip lemmas -/

theorem char_toNat_valid (c : Char) :
    c.toNat < 55296 ∨ (57343 < c.toNat ∧ c.toNat < 1114112) := c.valid

theorem char_toNat_ofNat_valid (n : Nat) (h : n.isValidChar) :
    (Char.ofNat n).toNat = n := by
  unfold Char.ofNat
  rw [dif_pos h]
  rfl

theorem utf8EncodeChar_ne_nil (c : Char) : utf8EncodeChar c ≠ [] := by
  unfold utf8EncodeChar
  dsimp only
  split
  · simp
  · split
    · simp
    · split <;> simp

theorem utf8DecodeOne_encodeChar (c : Char) (rest : List Nat) :
    utf8DecodeOne (utf8EncodeChar c ++ rest) = some (c, rest) := by
  have hv : c.toNat < 55296 ∨ (57343 < c.toNat ∧ c.toNat < 1114112) := c.valid
  unfold utf8EncodeChar
  by_cases h1 : c.toNat < 128
  · rw [if_pos h1]
    simp only [List.cons_append, List.nil_append, utf8DecodeOne]
    rw [if_pos h1, Char.ofNat_toNat]
  · rw [if_neg h1]
    by_cases h2 : c.toNat < 2048
    · rw [if_pos h2]
      simp only [List.cons_append, List.nil_append, utf8DecodeOne]
      rw [if_neg (by omega), if_neg (by omega), if_pos (by omega),
        if_pos (by simp only [isCont, Bool.and_eq_true, decide_eq_true_eq]; omega)]
      have harg : (192 + c.toNat / 64 - 192) * 64 + (128 + c.toNat % 64 - 128)
          = c.toNat := by omega
      rw [harg, Char.ofNat_toNat]
    · rw [if_neg h2]
      by_cases h3 : c.toNat < 65536
      · rw [if_pos h3]
        simp only [List.cons_append, List.nil_append, utf8DecodeOne]
        rw [if_neg (by omega), if_neg (by omega), if_neg (by omega),
          if_pos (by omega)]
        have harg : (224 + c.toNat / 4096 - 224) * 4096 +
            (128 + c.toNat / 64 % 64 - 128) * 64 + (128 + c.toNat % 64 - 128)
            = c.toNat := by omega
        rw [harg]
        rw [if_pos (by
          simp only [isCont, harg, Bool.and_eq_true, decide_eq_true_eq,
            Bool.not_eq_true', Bool.and_eq_false_iff, decide_eq_false_iff_not]
          omega)]
        rw [Char.ofNat_toNat]
      · rw [if_neg h3]
        simp only [List.cons_append, List.nil_append, utf8DecodeOne]
        rw [if_neg (by omega), if_neg (by omega), if_neg (by omega),
          if_neg (by omega), if_pos (by omega)]
        have harg : (240 + c.toNat / 262144 - 240) * 262144 +
            (128 + c.toNat / 4096 % 64 - 128) * 4096 +
            (128 + c.toNat / 64 % 64 - 128) * 64 + (128 + c.toNat % 64 - 128)
            = c.toNat := by omega
        rw [harg]
        rw [if_pos (by
          simp only [isCont, harg, Bool.and_eq_true, decide_eq_true_eq]
          omega)]
        rw [Char.ofNat_toNat]

theorem utf8DecodeAux_flatMap (l : List Char) :
    ∀ fuel : Nat, (l.flatMap utf8EncodeChar).length ≤ fuel →
      utf8DecodeAux fuel (l.flatMap utf8EncodeChar) = some l := by
  induction l with
  | nil =>
    intro fuel _
    cases fuel <;> rfl
  | cons c cs ih =>
    intro fuel hfuel
    rw [List.flatMap_cons] at hfuel ⊢
    have hne := utf8EncodeChar_ne_nil c
    cases henc : utf8EncodeChar c with
    | nil => exact absurd henc hne
    | cons b bs =>
      rw [henc] at hfuel
      have hlen : 1 ≤ (utf8EncodeChar c).length := by
        rw [henc]; simp
      cases fuel with
      | zero =>
        rw [List.length_append, List.length_cons] at hfuel
        omega
      | succ fuel =>
        rw [List.cons_append]
        simp only [utf8DecodeAux]
        rw [← List.cons_append, ← henc, utf8DecodeOne_encodeChar]
        have hrest : (cs.flatMap utf8EncodeChar).length ≤ fuel := by
          simp only [List.cons_append, List.length_cons, List.length_append] at hfuel
          omega
        simp [ih fuel hrest]

theorem utf8Decode_flatMap (l : List Char) :
    utf8DecodeChars (l.flatMap utf8EncodeChar) = some l :=
  utf8DecodeAux_flatMap l (l.flatMap utf8EncodeChar).length (Nat.le_refl _)

/-! ## JSON string literal round-trip lemmas -/

theorem stringMk_data (s : String) : String.mk s.data = s := rfl

theorem parseHexDigit_hexDigitChar (d : Nat) (h : d < 16) :
    parseHexDigit (hexDigitChar d) = some d := by
  interval_cases d <;> decide

theorem parseBody_escape (c : Char) (tail : List Char) :
    parseJsonStringBody (jsonEscapeChar c ++ tail) =
      (parseJsonStringBody tail).map (fun p => (c :: p.1, p.2)) := by
  have hov : Char.ofNat c.toNat = c := Char.ofNat_toNat c
  unfold jsonEscapeChar
  by_cases hq : c = '"'
  · subst hq
    rw [if_pos rfl, parseJsonStringBody.eq_def]
    simp
  · rw [if_neg hq]
    by_cases hb : c = '\\'
    · subst hb
      rw [if_pos rfl, parseJsonStringBody.eq_def]
      simp
    · rw [if_neg hb]
      by_cases h8 : c.toNat = 8
      · rw [if_pos h8, parseJsonStringBody.eq_def]
        rw [h8] at hov
        simp
        rw [hov]
      · rw [if_neg h8]
        by_cases h9 : c.toNat = 9
        · rw [if_pos h9, parseJsonStringBody.eq_def]
          rw [h9] at hov
          simp
          rw [hov]
        · rw [if_neg h9]
          by_cases h10 : c.toNat = 10
          · rw [if_pos h10, parseJsonStringBody.eq_def]
            rw [h10] at hov
            simp
            rw [hov]
          · rw [if_neg h10]
            by_cases h12 : c.toNat = 12
            · rw [if_pos h12, parseJsonStringBody.eq_def]
              rw [h12] at hov
              simp
              rw [hov]
            · rw [if_neg h12]
              by_cases h13 : c.toNat = 13
              · rw [if_pos h13, parseJsonStringBody.eq_def]
                rw [h13] at hov
                simp
                rw [hov]
              · rw [if_neg h13]
                by_cases h32 : c.toNat < 32
                · rw [if_pos h32, parseJsonStringBody.eq_def]
                  have harg : c.toNat / 16 * 16 + c.toNat % 16 = c.toNat := by omega
                  simp [parseHexDigit_hexDigitChar (c.toNat / 16) (by omega),
                    parseHexDigit_hexDigitChar (c.toNat % 16) (by omega),
                    show parseHexDigit '0' = some 0 from rfl, harg, hov]
                · rw [if_neg h32, parseJsonStringBody.eq_def]
                  simp [hq, hb]

theorem parseBody_quote (l : List Char) (rest : List Char) :
    parseJsonStringBody (l.flatMap jsonEscapeChar ++ ('"' :: rest)) = some (l, rest) := by
  induction l with
  | nil =>
    rw [List.flatMap_nil, List.nil_append, parseJsonStringBody.eq_def]
    simp
  | cons c cs ih =>
    rw [List.flatMap_cons, List.append_assoc, parseBody_escape, ih]
    rfl

theorem parseJsonString_quote (s : String) (rest : List Char) :
    parseJsonString (jsonQuote s ++ rest) = some (s, rest) := by
  have hshape : jsonQuote s ++ rest = '"' :: (s.data.flatMap jsonEscapeChar ++ ('"' :: rest)) := by
    unfold jsonQuote
    simp [List.append_assoc]
  rw [hshape]
  show (parseJsonStringBody (s.data.flatMap jsonEscapeChar ++ ('"' :: rest))).map
    (fun p => (String.mk p.1, p.2)) = _
  rw [parseBody_quote]
  simp [stringMk_data]

/-! ## JSON object and array round-trip lemmas -/

theorem jsValueChars_quote (v : JsValue) (h : v ≠ JsValue.nanDate) :
    jsValueChars v = jsonQuote (jsValueString v) := by
  cases v with
  | str s => rfl
  | date t => rfl
  | nanDate => exact absurd rfl h

theorem sepByComma_single (x : List Char) : sepByComma [x] = x := by
  simp [sepByComma]

theorem sepByComma_cons_cons (x y : List Char) (t : List (List Char)) :
    sepByComma (x :: y :: t) = x ++ ',' :: sepByComma (y :: t) := by
  simp [sepByComma]

theorem sepByComma_length (xs : List (List Char)) (h : ∀ x ∈ xs, 1 ≤ x.length) :
    xs.length ≤ (sepByComma xs).length + 1 := by
  induction xs with
  | nil => simp [sepByComma]
  | cons x t ih =>
    cases t with
    | nil =>
      have := h x (by simp)
      rw [sepByComma_single]
      simpa using this
    | cons y t2 =>
      have hx := h x (by simp)
      have ht := ih (fun z hz => h z (List.mem_cons_of_mem x hz))
      rw [sepByComma_cons_cons]
      simp only [List.length_cons, List.length_append] at *
      omega

theorem sepByComma_cons_head (a : Char) (as : List Char) (xs : List (List Char)) :
    ∃ s, sepByComma ((a :: as) :: xs) = a :: s := by
  cases xs with
  | nil => rw [sepByComma_single]; exact ⟨as, rfl⟩
  | cons y t => rw [sepByComma_cons_cons]; exact ⟨as ++ ',' :: sepByComma (y :: t), rfl⟩

theorem jsonQuote_cons (s : String) :
    jsonQuote s = '"' :: (s.data.flatMap jsonEscapeChar ++ ['"']) := rfl

theorem sepByComma_head_quote (k : String) (v : JsValue) (xs : List (List Char)) :
    ∃ s, sepByComma ((jsonQuote k ++ ':' :: jsValueChars v) :: xs) = '"' :: s := by
  have hq : jsonQuote k ++ ':' :: jsValueChars v =
      '"' :: ((k.data.flatMap jsonEscapeChar ++ ['"']) ++ ':' :: jsValueChars v) := by
    rw [jsonQuote_cons, List.cons_append]
  rw [hq]
  exact sepByComma_cons_head '"' _ xs

theorem parseObjFields_stringify (flds : JsObj) :
    ∀ (fuel : Nat) (rest : List Char), flds ≠ [] → flds.length ≤ fuel →
      (∀ kv ∈ flds, kv.2 ≠ JsValue.nanDate) →
      parseObjFields fuel
        (sepByComma (flds.map (fun kv => jsonQuote kv.1 ++ ':' :: jsValueChars kv.2)) ++
          ('}' :: rest)) = some (objAfterJson flds, rest) := by
  induction flds with
  | nil => intro fuel rest hne; exact absurd rfl hne
  | cons kv tl ih =>
    intro fuel rest _ hfuel hok
    cases fuel with
    | zero => simp at hfuel
    | succ fuel =>
      obtain ⟨k, v⟩ := kv
      have hvq := jsValueChars_quote v (hok (k, v) (by simp))
      cases tl with
      | nil =>
        rw [List.map_cons, List.map_nil, sepByComma_single, parseObjFields.eq_def]
        simp only [List.append_assoc, List.cons_append, hvq, parseJsonString_quote,
          expectChar_cons]
        simp [objAfterJson]
      | cons kv2 tl2 =>
        rw [List.map_cons, List.map_cons, sepByComma_cons_cons, parseObjFields.eq_def]
        simp only [List.append_assoc, List.cons_append, hvq, parseJsonString_quote,
          expectChar_cons]
        have IH := ih fuel rest (by simp) (by simp at hfuel ⊢; omega)
          (fun z hz => hok z (List.mem_cons_of_mem (k, v) hz))
        simp only [List.map_cons] at IH
        rw [IH]
        simp [objAfterJson]

theorem stringifyObj_shape (o : JsObj) :
    stringifyObj o =
      '{' :: (sepByComma (o.map (fun kv => jsonQuote kv.1 ++ ':' :: jsValueChars kv.2)) ++
        ['}']) := rfl

theorem stringifyArr_shape (objs : List JsObj) :
    stringifyArr objs = '[' :: (sepByComma (objs.map stringifyObj) ++ [']']) := rfl

theorem stringifyObj_length_ge (o : JsObj) : o.length ≤ (stringifyObj o).length := by
  have h := sepByComma_length
    (o.map (fun kv => jsonQuote kv.1 ++ ':' :: jsValueChars kv.2))
    (by
      intro x hx
      obtain ⟨kv, _, hkv⟩ := List.mem_map.mp hx
      rw [← hkv, jsonQuote_cons]
      simp)
  rw [stringifyObj_shape]
  simp only [List.length_map, List.length_cons, List.length_append] at h ⊢
  omega

theorem parseObj_enter (fuel : Nat) (a : Char) (tail : List Char) (h : ¬ a = '}') :
    parseObj fuel ('{' :: a :: tail) = parseObjFields fuel (a :: tail) := by
  rw [parseObj.eq_def]
  split
  all_goals
    first
      | (rename_i heq
         rw [List.cons.injEq, List.cons.injEq] at heq
         exact absurd heq.2.1 h)
      | (rename_i hx
         exact (hx (a :: tail) rfl).elim)
      | (rename_i r heq
         obtain ⟨_, h2⟩ := List.cons.inj heq
         subst h2
         split
         all_goals
           first
             | rfl
             | (rename_i heq2
                rw [List.cons.injEq] at heq2
                exact absurd heq2.1 h))

theorem parseObj_stringify (o : JsObj) (fuel : Nat) (rest : List Char)
    (hfuel : o.length ≤ fuel) (hok : ∀ kv ∈ o, kv.2 ≠ JsValue.nanDate) :
    parseObj fuel (stringifyObj o ++ rest) = some (objAfterJson o, rest) := by
  cases o with
  | nil => rfl
  | cons kv tl =>
    obtain ⟨S, hS⟩ := sepByComma_head_quote kv.1 kv.2
      (tl.map (fun kv => jsonQuote kv.1 ++ ':' :: jsValueChars kv.2))
    have hshape : stringifyObj (kv :: tl) ++ rest = '{' :: '"' :: (S ++ ('}' :: rest)) := by
      rw [stringifyObj_shape]
      simp only [List.map_cons]
      rw [hS]
      simp
    rw [hshape, parseObj_enter fuel '"' _ (by decide), ← List.cons_append, ← hS]
    exact parseObjFields_stringify (kv :: tl) fuel rest (by simp) hfuel hok

theorem parseObjTop_stringify (o : JsObj) (hok : ∀ kv ∈ o, kv.2 ≠ JsValue.nanDate) :
    parseObjTop (stringifyObj o) = some (objAfterJson o) := by
  unfold parseObjTop
  have h := parseObj_stringify o (stringifyObj o).length [] (stringifyObj_length_ge o) hok
  rw [List.append_nil] at h
  rw [h]

theorem parseArrElems_stringify (objs : List JsObj) :
    ∀ (fuel : Nat) (rest : List Char), objs ≠ [] → objs.length ≤ fuel →
      (∀ o ∈ objs, ∀ kv ∈ o, kv.2 ≠ JsValue.nanDate) →
      parseArrElems fuel (sepByComma (objs.map stringifyObj) ++ (']' :: rest)) =
        some (objs.map objAfterJson, rest) := by
  induction objs with
  | nil => intro fuel rest hne; exact absurd rfl hne
  | cons o tl ih =>
    intro fuel rest _ hfuel hok
    cases fuel with
    | zero => simp at hfuel
    | succ fuel =>
      cases tl with
      | nil =>
        rw [List.map_cons, List.map_nil, sepByComma_single, parseArrElems.eq_def]
        have hobj : parseObj (stringifyObj o ++ (']' :: rest)).length
            (stringifyObj o ++ (']' :: rest)) = some (objAfterJson o, ']' :: rest) :=
          parseObj_stringify o _ _
            (by
              rw [List.length_append]
              have := stringifyObj_length_ge o
              omega)
            (hok o (by simp))
        simp only [hobj]
        simp
      | cons o2 tl2 =>
        rw [List.map_cons, List.map_cons, sepByComma_cons_cons, parseArrElems.eq_def]
        simp only [List.append_assoc, List.cons_append]
        have hobj : parseObj (stringifyObj o ++ (',' ::
            (sepByComma (stringifyObj o2 :: tl2.map stringifyObj) ++ ']' :: rest))).length
            (stringifyObj o ++ (',' ::
              (sepByComma (stringifyObj o2 :: tl2.map stringifyObj) ++ ']' :: rest))) =
            some (objAfterJson o, ',' ::
              (sepByComma (stringifyObj o2 :: tl2.map stringifyObj) ++ ']' :: rest)) :=
          parseObj_stringify o _ _
            (by
              rw [List.length_append]
              have := stringifyObj_length_ge o
              omega)
            (hok o (by simp))
        simp only [hobj]
        have IH := ih fuel rest (by simp) (by simp at hfuel ⊢; omega)
          (fun z hz => hok z (List.mem_cons_of_mem o hz))
        simp only [List.map_cons] at IH
        rw [IH]
        simp

theorem sepByComma_head_obj (o : JsObj) (xs : List (List Char)) :
    ∃ s, sepByComma (stringifyObj o :: xs) = '{' :: s := by
  rw [stringifyObj_shape]
  exact sepByComma_cons_head '{' _ xs

theorem parseArrTop_stringify (objs : List JsObj)
    (hok : ∀ o ∈ objs, ∀ kv ∈ o, kv.2 ≠ JsValue.nanDate) :
    parseArrTop (stringifyArr objs) = some (objs.map objAfterJson) := by
  cases objs with
  | nil => rfl
  | cons o tl =>
    obtain ⟨S, hS⟩ := sepByComma_head_obj o (tl.map stringifyObj)
    have hlen : (o :: tl).length ≤
        (sepByComma ((o :: tl).map stringifyObj) ++ (']' :: ([] : List Char))).length := by
      have h := sepByComma_length ((o :: tl).map stringifyObj)
        (by
          intro x hx
          obtain ⟨ob, _, hob⟩ := List.mem_map.mp hx
          rw [← hob, stringifyObj_shape]
          simp)
      rw [List.length_append]
      simp only [List.map_cons, List.length_map, List.length_cons] at h ⊢
      simp
      omega
    have helems := parseArrElems_stringify (o :: tl) _ [] (by simp) hlen hok
    have hr : sepByComma ((o :: tl).map stringifyObj) ++ ([']'] : List Char) =
        '{' :: (S ++ [']']) := by
      rw [List.map_cons, hS, List.cons_append]
    rw [stringifyArr_shape, parseArrTop.eq_def, hr]
    split
    all_goals
      first
        | (rename_i heq
           rw [List.cons.injEq, List.cons.injEq] at heq
           exact absurd heq.2.1 (by decide))
        | (rename_i hx
           exact (hx ('{' :: (S ++ [']'])) rfl).elim)
        | (rename_i r heq
           obtain ⟨_, h2⟩ := List.cons.inj heq
           subst h2
           split
           all_goals
             first
               | (rename_i heq2
                  rw [List.cons.injEq] at heq2
                  exact absurd heq2.1 (by decide))
               | (rw [← hr, helems]))

/-! ## Map and storage lemmas -/

theorem assocLookup_cons_pos {α : Type} (kv : String × α) (m : List (String × α))
    (k : String) (h : kv.1 = k) : assocLookup (kv :: m) k = some kv.2 := by
  unfold assocLookup
  rw [List.find?_cons_of_pos _ (by simp [h])]
  rfl

theorem assocLookup_cons_neg {α : Type} (kv : String × α) (m : List (String × α))
    (k : String) (h : ¬ kv.1 = k) : assocLookup (kv :: m) k = assocLookup m k := by
  unfold assocLookup
  rw [List.find?_cons_of_neg _ (by simp [h])]

theorem assocLookup_setExisting {α : Type} (m : List (String × α)) (k : String) (v : α) :
    m.any (fun kv => kv.1 = k) = true →
    assocLookup (m.map (fun kv => if kv.1 = k then (k, v) else kv)) k = some v := by
  induction m with
  | nil => intro h; simp at h
  | cons kv t ih =>
    intro h
    rw [List.map_cons]
    by_cases hk : kv.1 = k
    · rw [if_pos hk, assocLookup_cons_pos _ _ _ rfl]
    · rw [if_neg hk, assocLookup_cons_neg _ _ _ hk]
      apply ih
      simp only [List.any_cons, Bool.or_eq_true, decide_eq_true_eq] at h
      rcases h with h | h
      · exact absurd h hk
      · exact h

theorem assocLookup_appendNew {α : Type} (m : List (String × α)) (k : String) (v : α) :
    m.any (fun kv => kv.1 = k) = false →
    assocLookup (m ++ [(k, v)]) k = some v := by
  induction m with
  | nil =>
    intro _
    rw [List.nil_append]
    exact assocLookup_cons_pos _ _ _ rfl
  | cons kv t ih =>
    intro h
    simp only [List.any_cons, Bool.or_eq_false_iff, decide_eq_false_iff_not] at h
    rw [List.cons_append, assocLookup_cons_neg _ _ _ h.1]
    exact ih (by simp [h.2])

theorem assocLookup_mapSet_self {α : Type} (m : List (String × α)) (k : String) (v : α) :
    assocLookup (mapSet m k v) k = some v := by
  unfold mapSet
  split
  next hany => exact assocLookup_setExisting m k v hany
  next hany => exact assocLookup_appendNew m k v (by simp only [Bool.not_eq_true] at hany; exact hany)

theorem objAfterJson_str (o : JsObj) (h : ∀ kv ∈ o, ∃ s, kv.2 = JsValue.str s) :
    objAfterJson o = o := by
  unfold objAfterJson
  induction o with
  | nil => rfl
  | cons kv t ih =>
    rw [List.map_cons]
    obtain ⟨s, hs⟩ := h kv (by simp)
    rw [ih (fun z hz => h z (List.mem_cons_of_mem kv hz))]
    obtain ⟨k1, v1⟩ := kv
    simp only [] at hs
    rw [hs]
    rfl

/-! ## Stored message and profile round-trip lemmas -/

theorem parseISODate_isoString (t : Int) : parseISODate (isoString t) = some t :=
  parseISO_roundtrip t

theorem reviveDate_iso (t : Int) :
    reviveDate (JsValue.str (isoString t)) = JsValue.date t := by
  show (match parseISODate (isoString t) with
    | some t => JsValue.date t
    | none => JsValue.nanDate) = JsValue.date t
  rw [parseISODate_isoString]

theorem msgToObj_eq (m : BluetoothMessage) (t : Int) (h : m.timestamp = JsValue.date t) :
    msgToObj m = [("id", .str m.id), ("content", .str m.content),
      ("sender", .str m.sender), ("timestamp", .date t), ("type", .str m.type)] := by
  unfold msgToObj
  rw [h]

theorem msgToObj_ok (m : BluetoothMessage) (t : Int) (h : m.timestamp = JsValue.date t) :
    ∀ kv ∈ msgToObj m, kv.2 ≠ JsValue.nanDate := by
  intro kv hkv
  rw [msgToObj_eq m t h] at hkv
  simp only [List.mem_cons, List.mem_singleton, List.not_mem_nil, or_false] at hkv
  rcases hkv with h1 | h1 | h1 | h1 | h1 <;> subst h1 <;> simp

theorem reviveMsg_msgToObj (m : BluetoothMessage) (t : Int)
    (h : m.timestamp = JsValue.date t) :
    reviveMsg (objAfterJson (msgToObj m)) = msgToObj m := by
  rw [msgToObj_eq m t h]
  show [("id", JsValue.str m.id), ("content", .str m.content), ("sender", .str m.sender),
    ("timestamp", reviveDate (.str (isoString t))), ("type", .str m.type)] = _
  rw [reviveDate_iso]

theorem map_revive_afterJson (msgs : List JsObj)
    (hgood : ∀ o ∈ msgs, GoodStoredObj o) :
    (msgs.map objAfterJson).map reviveMsg = msgs := by
  rw [List.map_map]
  have : ∀ o ∈ msgs, (reviveMsg ∘ objAfterJson) o = id o :=
    fun o ho => (hgood o ho).2
  rw [List.map_congr_left this, List.map_id]

theorem getStored_after_store (st : ServiceState) (msgs : List JsObj)
    (m : BluetoothMessage) (t : Int) (hm : m.timestamp = JsValue.date t)
    (hmsgs : getStoredMessages st = some msgs)
    (hgood : ∀ o ∈ msgs, GoodStoredObj o) :
    storeMessage m st = some { st with
        storage := mapSet st.storage "kickchat_messages"
          (String.mk (stringifyArr (msgs ++ [msgToObj m]))) } ∧
      getStoredMessages { st with
        storage := mapSet st.storage "kickchat_messages"
          (String.mk (stringifyArr (msgs ++ [msgToObj m]))) } =
        some (msgs ++ [msgToObj m]) := by
  constructor
  · unfold storeMessage
    rw [hmsgs]
  · unfold getStoredMessages
    rw [assocLookup_mapSet_self]
    show (match parseArrTop (stringifyArr (msgs ++ [msgToObj m])) with
      | none => none
      | some objs => some (objs.map reviveMsg)) = _
    rw [parseArrTop_stringify (msgs ++ [msgToObj m])
      (by
        intro o ho kv hkv
        rcases List.mem_append.mp ho with h1 | h1
        · exact (hgood o h1).1 kv hkv
        · rw [List.mem_singleton] at h1
          subst h1
          exact msgToObj_ok m t hm kv hkv)]
    show some (((msgs ++ [msgToObj m]).map objAfterJson).map reviveMsg) = _
    rw [List.map_append, List.map_append, map_revive_afterJson msgs hgood]
    simp only [List.map_cons, List.map_nil]
    rw [reviveMsg_msgToObj m t hm]

/-! ## Device list sorting and cleanup lemmas -/

theorem deviceLe_total (a b : ChatDevice) : deviceLe a b || deviceLe b a := by
  unfold deviceLe
  cases ha : a.connected <;> cases hb : b.connected <;>
    simp [ha, hb] <;> omega

theorem deviceLe_trans : ∀ (a b c : ChatDevice),
    deviceLe a b → deviceLe b c → deviceLe a c := by
  intro a b c hab hbc
  unfold deviceLe at *
  cases ha : a.connected <;> cases hb : b.connected <;> cases hc : c.connected <;>
    simp_all <;> omega

theorem foldl_mapDelete_filter {α : Type} (ids : List String) (m : List (String × α)) :
    ids.foldl mapDelete m = m.filter (fun kv => !(ids.contains kv.1)) := by
  induction ids generalizing m with
  | nil => simp
  | cons i t ih =>
    rw [List.foldl_cons, ih]
    unfold mapDelete
    rw [List.filter_filter]
    apply List.filter_congr
    intro kv _
    rw [List.contains_cons]
    cases hki : kv.1 == i with
    | true =>
      have : kv.1 = i := by simpa using hki
      simp [this]
    | false =>
      have : ¬ kv.1 = i := by simpa using hki
      simp [this, hki]

theorem contains_removedKeys {α : Type} [DecidableEq α] (m : List (String × α))
    (p : String × α → Bool) (kv : String × α)
    (hnodup : (m.map (fun kv => kv.1)).Nodup) (hkv : kv ∈ m) :
    ((m.filter p).map (fun kv => kv.1)).contains kv.1 = p kv := by
  cases hp : p kv with
  | true =>
    have hmem : kv ∈ m.filter p := List.mem_filter.mpr ⟨hkv, hp⟩
    have : kv.1 ∈ (m.filter p).map (fun kv => kv.1) := List.mem_map_of_mem _ hmem
    exact List.elem_iff.mpr this
  | false =>
    rw [Bool.eq_false_iff]
    intro hc
    have hc2 : kv.1 ∈ (m.filter p).map (fun kv => kv.1) := List.elem_iff.mp hc
    obtain ⟨kv2, hkv2, hk⟩ := List.mem_map.mp hc2
    have hkv2m := (List.mem_filter.mp hkv2).1
    have heq := List.inj_on_of_nodup_map hnodup hkv2m hkv hk
    rw [← heq, (List.mem_filter.mp hkv2).2] at hp
    exact absurd hp (by simp)

/-! ## Claim theorems -/

/-- Claim C8: if `sendMessage` is called with a device id that is not in the
device map, or with a device whose connected flag is false, or while no
current user is set, it returns `false` and leaves all state unchanged — no
message is persisted and no message callback is invoked. -/
theorem claim8_sendMessage_guard (st : ServiceState) (deviceId content : String)
    (env : SendEnv)
    (h : assocLookup st.devices deviceId = none ∨
      (∃ d, assocLookup st.devices deviceId = some d ∧ d.connected = false) ∨
      st.currentUser = none) :
    sendMessage st deviceId content env = (false, st, []) := by
  unfold sendMessage
  rcases h with h1 | ⟨d, hd, hconn⟩ | h3
  · rw [h1]
  · rw [hd]
    simp [hconn]
  · cases hlk : assocLookup st.devices deviceId with
    | none => rfl
    | some d =>
      cases hc : d.connected with
      | false => simp [hc]
      | true => simp [hc, h3]

/-- Witness for C8 at a concrete empty service state. -/
theorem claim8_witness :
    sendMessage ⟨[], none, false, none, []⟩ "x" "hi" ⟨"u1", 0, true⟩ =
      (false, ⟨[], none, false, none, []⟩, []) :=
  claim8_sendMessage_guard _ _ _ _ (Or.inl rfl)

/-- Claim C10: `cleanupOldDevices` removes exactly the devices that are both
disconnected and last seen more than one hour before the current time;
connected devices are never removed, and every remaining entry is unchanged
(the map becomes the filter of the original). -/
theorem claim10_cleanup (st : ServiceState) (now : Int)
    (hnodup : (st.devices.map (fun kv => kv.1)).Nodup) :
    (cleanupOldDevices st now).devices =
      st.devices.filter
        (fun kv => kv.2.connected || decide (now - 3600000 ≤ kv.2.lastSeen)) := by
  unfold cleanupOldDevices
  simp only []
  rw [foldl_mapDelete_filter]
  apply List.filter_congr
  intro kv hkv
  rw [contains_removedKeys st.devices _ kv hnodup hkv]
  rw [Bool.eq_iff_iff]
  cases hc : kv.2.connected <;> simp [hc] <;> omega

/-- Witness for C10: one stale disconnected device is removed. -/
theorem claim10_witness :
    (cleanupOldDevices
      ⟨[("a", ⟨"a", "D", false, 0, none, false, false, false, false⟩)],
        none, false, none, []⟩ 7200000).devices =
      List.filter
        (fun kv => kv.2.connected || decide ((7200000 : Int) - 3600000 ≤ kv.2.lastSeen))
        [("a", ⟨"a", "D", false, 0, none, false, false, false, false⟩)] :=
  claim10_cleanup _ 7200000 (by simp)

/-- Claim C5: `getConnectedDevices` returns exactly the known devices whose
connected flag is true, and `getAllDevices` returns every known device,
ordered with connected devices before disconnected ones and, within the same
connection status, by more recent `lastSeen` first. -/
theorem claim5_device_lists (st : ServiceState) :
    (∀ d : ChatDevice, d ∈ getConnectedDevices st ↔
      d ∈ st.devices.map (fun kv => kv.2) ∧ d.connected = true) ∧
    (getAllDevices st).Perm (st.devices.map (fun kv => kv.2)) ∧
    (getAllDevices st).Pairwise (fun a b =>
      (b.connected = true → a.connected = true) ∧
      (a.connected = b.connected → b.lastSeen ≤ a.lastSeen)) := by
  refine ⟨?_, ?_, ?_⟩
  · intro d
    unfold getConnectedDevices
    exact List.mem_filter
  · exact List.mergeSort_perm _ _
  · have hs := List.sorted_mergeSort deviceLe_trans deviceLe_total
      (st.devices.map (fun kv => kv.2))
    apply List.Pairwise.imp _ hs
    intro a b hab
    constructor
    · intro hbc
      unfold deviceLe at hab
      cases hca : a.connected <;> simp_all
    · intro hconn
      unfold deviceLe at hab
      cases hca : a.connected <;> cases hcb : b.connected <;> simp_all

theorem userToObj_str (u : ChatUser) :
    ∀ kv ∈ userToObj u, ∃ s, kv.2 = JsValue.str s := by
  intro kv hkv
  unfold userToObj at hkv
  cases ha : u.avatar
  · rw [ha] at hkv
    simp at hkv
    rcases hkv with h | h <;> subst h <;> exact ⟨_, rfl⟩
  · rw [ha] at hkv
    simp at hkv
    rcases hkv with h | h | h <;> subst h <;> exact ⟨_, rfl⟩

theorem objToUser_userToObj (u : ChatUser) : objToUser (userToObj u) = some u := by
  obtain ⟨i, n, a⟩ := u
  cases a with
  | none => rfl
  | some av => rfl

/-- Claim C7: the user profile round-trips through the key-value store; after
`setCurrentUser u` a `getCurrentUser` returns `u` both from memory and — when
no user is held in memory — by reloading and re-parsing the profile stored
under `kickchat_user`. -/
theorem claim7_user_roundtrip (st : ServiceState) (u : ChatUser) :
    getCurrentUser (setCurrentUser u st) = some (some u, setCurrentUser u st) ∧
    getCurrentUser { setCurrentUser u st with currentUser := none } =
      some (some u, { setCurrentUser u st with currentUser := some u }) := by
  constructor
  · rfl
  · have h1 : assocLookup ({ setCurrentUser u st with currentUser := none }).storage
        "kickchat_user" = some (String.mk (stringifyObj (userToObj u))) := by
      show assocLookup (mapSet st.storage "kickchat_user"
        (String.mk (stringifyObj (userToObj u)))) "kickchat_user" = _
      exact assocLookup_mapSet_self _ _ _
    have h2 : parseObjTop (String.mk (stringifyObj (userToObj u))).data =
        some (userToObj u) := by
      show parseObjTop (stringifyObj (userToObj u)) = _
      rw [parseObjTop_stringify (userToObj u)
        (by
          intro kv hkv
          obtain ⟨s, hs⟩ := userToObj_str u kv hkv
          rw [hs]
          simp)]
      rw [objAfterJson_str _ (userToObj_str u)]
    rw [getCurrentUser.eq_def]
    simp only [h1, h2, objToUser_userToObj]

theorem handleFoundDevice_events (st : ServiceState) (device : BrowserDevice)
    (env : ScanEnv) :
    ∃ d, (handleFoundDevice st device env).2.2 = [Event.deviceFound d] := by
  unfold handleFoundDevice
  cases assocLookup st.devices device.id <;> exact ⟨_, rfl⟩

/-- Claim C1 (amended): one `requestDevice` call issues no browser discovery
request when unsupported or already scanning, two requests exactly when the
first request fails with an error message containing `no services found` (the
`requestDeviceFallback` retry), and one request otherwise. -/
theorem claim1_browser_request_count (st : ServiceState) (env : ScanEnv) :
    browserRequestCount (requestDevice st env).2.2 =
      (if env.supported = true ∧ st.isScanning = false then
        (match env.outcome1 with
         | .ok _ => 1
         | .error msg => if includesSubstr msg "no services found" then 2 else 1)
       else 0) := by
  unfold requestDevice
  cases hsup : env.supported with
  | false => simp [browserRequestCount]
  | true =>
    cases hscan : st.isScanning with
    | true => simp [browserRequestCount]
    | false =>
      simp only [Bool.not_eq_true, hscan, hsup, if_true, if_false, and_self,
        Bool.true_eq_false, Bool.false_eq_true, not_false_eq_true, ite_true]
      cases env.outcome1 with
      | ok d =>
        obtain ⟨d1, hd1⟩ := handleFoundDevice_events
          { st with isScanning := true, scanStartTime := some env.now } d env
        simp [hd1, browserRequestCount]
      | error msg =>
        by_cases hin : includesSubstr msg "no services found" = true
        · simp only [hin, if_true, ite_true]
          cases env.outcome2 with
          | ok d =>
            obtain ⟨d1, hd1⟩ := handleFoundDevice_events
              { st with isScanning := true, scanStartTime := some env.now } d env
            simp [hd1, browserRequestCount]
          | error msg2 => simp [browserRequestCount]
        · simp only [Bool.not_eq_true] at hin
          simp [hin, browserRequestCount]

/-- Counterexample to C1 as stated: when the first browser request fails with
a `no services found` error, the call issues a second discovery request
before returning. -/
theorem claim1_counterexample :
    ((⟨true, .error "no services found", .ok ⟨"d1", some "Phone"⟩, none, "12:00",
        0⟩ : ScanEnv).outcome1 = .error "no services found") ∧
    browserRequestCount
      (requestDevice ⟨[], none, false, none, []⟩
        ⟨true, .error "no services found", .ok ⟨"d1", some "Phone"⟩, none, "12:00",
          0⟩).2.2 = 2 := by
  constructor
  · rfl
  · rfl

/-- Claim C3 (amended): while a scan is in progress any further
`requestDevice` call returns `null` without issuing a browser request and
without touching any state — in particular the scanning flag stays `true`
until the in-progress call clears it; a call that actually starts a scan
resets the flag to `false` by the time it completes. -/
theorem claim3_scan_flag (st : ServiceState) (env : ScanEnv) :
    (st.isScanning = true → env.supported = true →
      requestDevice st env = (.ok none, st, [])) ∧
    (st.isScanning = false → env.supported = true →
      (requestDevice st env).2.1.isScanning = false) := by
  constructor
  · intro h hsup
    unfold requestDevice
    simp [h, hsup]
  · intro h hsup
    unfold requestDevice
    simp only [hsup, h, Bool.not_eq_true, Bool.true_eq_false, not_false_eq_true,
      if_false, ite_true, ite_false, Bool.false_eq_true]
    cases env.outcome1 with
    | ok d => simp
    | error msg =>
      by_cases hin : includesSubstr msg "no services found" = true
      · simp only [hin, ite_true]
        cases env.outcome2 <;> simp
      · simp only [Bool.not_eq_true] at hin
        simp [hin]

/-- Counterexample to C3 as stated: a call rejected by the scanning guard
completes by returning `null`, yet the scanning flag is still `true` at that
completion. -/
theorem claim3_counterexample :
    (requestDevice ⟨[], none, true, none, []⟩
      ⟨true, .ok ⟨"d", none⟩, .ok ⟨"d", none⟩, none, "t", 0⟩).1 = .ok none ∧
    (requestDevice ⟨[], none, true, none, []⟩
      ⟨true, .ok ⟨"d", none⟩, .ok ⟨"d", none⟩, none, "t", 0⟩).2.1.isScanning = true := by
  constructor
  · rfl
  · rfl

/-- Witness for C3 (amended) at concrete scanning and idle states. -/
theorem claim3_witness :
    requestDevice ⟨[], none, true, none, []⟩
      ⟨true, .ok ⟨"d", none⟩, .ok ⟨"d", none⟩, none, "t", 0⟩ =
      (.ok none, ⟨[], none, true, none, []⟩, []) ∧
    (requestDevice ⟨[], none, false, none, []⟩
      ⟨true, .ok ⟨"d", none⟩, .ok ⟨"d", none⟩, none, "t", 0⟩).2.1.isScanning = false :=
  ⟨(claim3_scan_flag _ _).1 rfl rfl, (claim3_scan_flag _ _).2 rfl rfl⟩

/-- Claim C4 (amended): when `connectToDevice` performs a fresh GATT
connection and succeeds, the device's `isKickChatDevice` flag records exactly
whether the KickChat service and message characteristic were acquired; but
when the device's GATT is already connected, the call succeeds immediately
and keeps the previous flag value unchanged. -/
theorem claim4_kickchat_detection (st : ServiceState) (deviceId : String)
    (env : ConnectEnv) (cd : ChatDevice)
    (hcd : assocLookup st.devices deviceId = some cd) (hdev : ¬ cd.device = none)
    (hgatt : env.hasGatt = true) :
    (env.alreadyConnected = false →
      (connectToDevice st deviceId env).1 = .ok true →
      ∃ cd1, assocLookup (connectToDevice st deviceId env).2.1.devices deviceId =
          some cd1 ∧ cd1.isKickChatDevice = env.kickChat) ∧
    (env.alreadyConnected = true →
      (connectToDevice st deviceId env).1 = .ok true ∧
      assocLookup (connectToDevice st deviceId env).2.1.devices deviceId =
        some { cd with connected := true }) := by
  constructor
  · intro hac hok
    unfold connectToDevice at hok ⊢
    simp only [hcd, hdev, hgatt, hac, if_false, ite_false, Bool.false_eq_true,
      not_false_eq_true, ite_true, Bool.not_eq_true, not_true] at hok ⊢
    cases hco : env.connectOk with
    | none => rw [hco] at hok; exact absurd hok (by simp)
    | some b =>
      cases b with
      | false => rw [hco] at hok; exact absurd hok (by simp)
      | true =>
        cases hk : env.kickChat with
        | true =>
          simp only [hk, ite_true]
          exact ⟨_, assocLookup_mapSet_self _ _ _, rfl⟩
        | false =>
          simp only [hk, ite_false, Bool.false_eq_true]
          exact ⟨_, assocLookup_mapSet_self _ _ _, rfl⟩
  · intro hac
    unfold connectToDevice
    simp only [hcd, hdev, hgatt, hac, if_false, ite_false, ite_true,
      not_false_eq_true, Bool.not_eq_true, not_true]
    refine ⟨?_, assocLookup_mapSet_self _ _ _⟩
    trivial

/-- Counterexample to C4 as stated: a device whose GATT link is already
connected (as `generateDeviceName` leaves it after a name read) connects
successfully against a KickChat-capable peer, yet `isKickChatDevice` remains
`false`. -/
theorem claim4_counterexample :
    (connectToDevice
      ⟨[("a", ⟨"a", "P", false, 0, some ⟨"a", some "P"⟩, false, false, false, false⟩)],
        none, false, none, []⟩ "a"
      ⟨true, true, some true, "", none, true, some 1, 5⟩).1 = .ok true ∧
    (⟨true, true, some true, "", none, true, some 1, 5⟩ : ConnectEnv).kickChat = true ∧
    (assocLookup
      (connectToDevice
        ⟨[("a", ⟨"a", "P", false, 0, some ⟨"a", some "P"⟩, false, false, false, false⟩)],
          none, false, none, []⟩ "a"
        ⟨true, true, some true, "", none, true, some 1, 5⟩).2.1.devices "a").map
      (fun d => d.isKickChatDevice) = some false := by
  refine ⟨rfl, rfl, rfl⟩

/-- Witness for C4 (amended) at a concrete fresh connection to a
KickChat-capable peer and a concrete already-connected device. -/
theorem claim4_witness :
    (∃ cd1, assocLookup
        (connectToDevice
          ⟨[("a", ⟨"a", "P", false, 0, some ⟨"a", some "P"⟩, false, false, false,
            false⟩)], none, false, none, []⟩ "a"
          ⟨true, false, some true, "", none, true, some 1, 5⟩).2.1.devices "a" =
        some cd1 ∧
      cd1.isKickChatDevice =
        (⟨true, false, some true, "", none, true, some 1, 5⟩ : ConnectEnv).kickChat) := by
  exact (claim4_kickchat_detection
    ⟨[("a", ⟨"a", "P", false, 0, some ⟨"a", some "P"⟩, false, false, false, false⟩)],
      none, false, none, []⟩ "a"
    ⟨true, false, some true, "", none, true, some 1, 5⟩
    ⟨"a", "P", false, 0, some ⟨"a", some "P"⟩, false, false, false, false⟩
    rfl (by simp) rfl).1 rfl rfl

/-- Claim C2 (amended): decoding the encoding of a message recovers `id`,
`content`, `sender` and `type` exactly, but the `timestamp` field comes back
as the ISO 8601 string serialization of the original `Date`, not as a `Date`
value (`JSON.parse` does not revive dates). -/
theorem claim2_decode_encode (m : BluetoothMessage) (t : Int)
    (h : m.timestamp = JsValue.date t) :
    decodeMessage (encodeMessage m) =
      some [("id", .str m.id), ("content", .str m.content), ("sender", .str m.sender),
        ("timestamp", .str (isoString t)), ("type", .str m.type)] := by
  unfold decodeMessage encodeMessage
  have hu : utf8DecodeChars (utf8Encode (String.mk (stringifyObj (msgToObj m)))) =
      some (stringifyObj (msgToObj m)) := utf8Decode_flatMap _
  simp only [hu]
  rw [parseObjTop_stringify (msgToObj m) (msgToObj_ok m t h), msgToObj_eq m t h]
  rfl

/-- Counterexample to C2 as stated: for a concrete message carrying a `Date`
timestamp, the decoded object is not equal to the original in every field. -/
theorem claim2_counterexample :
    decodeMessage (encodeMessage ⟨"a", "b", "c", .date 0, "text"⟩) ≠
      some (msgToObj ⟨"a", "b", "c", .date 0, "text"⟩) := by
  decide

/-- Witness for C2 (amended) at a concrete message. -/
theorem claim2_witness :
    decodeMessage (encodeMessage ⟨"a", "b", "c", .date 0, "text"⟩) =
      some [("id", .str "a"), ("content", .str "b"), ("sender", .str "c"),
        ("timestamp", .str (isoString 0)), ("type", .str "text")] :=
  claim2_decode_encode ⟨"a", "b", "c", .date 0, "text"⟩ 0 rfl

/-- Claim C6: messages persist through the key-value store: `storeMessage`
appends the message to the list kept under `kickchat_messages`, and
`getStoredMessages` returns all previously stored messages in insertion
order, with each timestamp revived as a `Date` value. -/
theorem claim6_message_persistence (st : ServiceState) (msgs : List JsObj)
    (m : BluetoothMessage) (t : Int) (hm : m.timestamp = JsValue.date t)
    (hmsgs : getStoredMessages st = some msgs)
    (hgood : ∀ o ∈ msgs, GoodStoredObj o) :
    ∃ st1, storeMessage m st = some st1 ∧
      getStoredMessages st1 = some (msgs ++ [msgToObj m]) ∧
      objGet (msgToObj m) "timestamp" = some (JsValue.date t) := by
  have h := getStored_after_store st msgs m t hm hmsgs hgood
  refine ⟨_, h.1, h.2, ?_⟩
  rw [msgToObj_eq m t hm]
  rfl

/-- Witness for C6 at an empty store and a concrete message. -/
theorem claim6_witness :
    ∃ st1, storeMessage ⟨"i", "c", "s", .date 0, "text"⟩ ⟨[], none, false, none, []⟩ =
        some st1 ∧
      getStoredMessages st1 =
        some ([] ++ [msgToObj ⟨"i", "c", "s", .date 0, "text"⟩]) ∧
      objGet (msgToObj ⟨"i", "c", "s", .date 0, "text"⟩) "timestamp" =
        some (JsValue.date 0) :=
  claim6_message_persistence ⟨[], none, false, none, []⟩ []
    ⟨"i", "c", "s", .date 0, "text"⟩ 0 rfl rfl (by simp)

/-- Claim C9: for a connected non-KickChat device (or one without a message
characteristic) and a current user, `sendMessage` returns `true`, appends
exactly one message to local storage and fires the message callbacks exactly
once, without attempting any Bluetooth write. -/
theorem claim9_non_kickchat_send (st : ServiceState) (deviceId content : String)
    (env : SendEnv) (d : ChatDevice) (u : ChatUser) (msgs : List JsObj)
    (hd : assocLookup st.devices deviceId = some d) (hconn : d.connected = true)
    (hnk : ¬ (d.isKickChatDevice = true ∧ d.characteristic = true))
    (hu : st.currentUser = some u)
    (hmsgs : getStoredMessages st = some msgs)
    (hgood : ∀ o ∈ msgs, GoodStoredObj o) :
    (sendMessage st deviceId content env).1 = true ∧
    (sendMessage st deviceId content env).2.2 =
      [Event.messageCallback ⟨env.uuid, content, u.id, .date env.now, "text"⟩] ∧
    getStoredMessages (sendMessage st deviceId content env).2.1 =
      some (msgs ++ [msgToObj ⟨env.uuid, content, u.id, .date env.now, "text"⟩]) := by
  have hstore := getStored_after_store st msgs
    ⟨env.uuid, content, u.id, .date env.now, "text"⟩ env.now rfl hmsgs hgood
  unfold sendMessage
  simp only [hd, hconn, hu, Bool.not_eq_true, not_true, if_false, ite_false,
    not_false_eq_true, ite_true]
  rw [if_neg hnk]
  simp only [hstore.1]
  refine ⟨?_, ?_, hstore.2⟩ <;> trivial

/-- Witness for C9 at a concrete connected generic device. -/
theorem claim9_witness :
    (sendMessage
      ⟨[("a", ⟨"a", "D", true, 0, none, false, false, false, false⟩)],
        some ⟨"u", "N", none⟩, false, none, []⟩ "a" "hello" ⟨"m1", 7, true⟩).1 = true ∧
    (sendMessage
      ⟨[("a", ⟨"a", "D", true, 0, none, false, false, false, false⟩)],
        some ⟨"u", "N", none⟩, false, none, []⟩ "a" "hello" ⟨"m1", 7, true⟩).2.2 =
      [Event.messageCallback ⟨"m1", "hello", "u", .date 7, "text"⟩] ∧
    getStoredMessages
      (sendMessage
        ⟨[("a", ⟨"a", "D", true, 0, none, false, false, false, false⟩)],
          some ⟨"u", "N", none⟩, false, none, []⟩ "a" "hello" ⟨"m1", 7, true⟩).2.1 =
      some ([] ++ [msgToObj ⟨"m1", "hello", "u", .date 7, "text"⟩]) :=
  claim9_non_kickchat_send _ "a" "hello" ⟨"m1", 7, true⟩
    ⟨"a", "D", true, 0, none, false, false, false, false⟩ ⟨"u", "N", none⟩ []
    rfl rfl (by simp) rfl rfl (by simp)
